import Mathlib

/-!
# Verification of the hazard-aware-map aggregation and alerting core

Shallow embedding of the Python backend (`src/backend/app`) of the
hazard-aware-map repository: the detection-to-hazard aggregation pipeline
(`api/admin.py:process_detections`, `services/clustering.py`,
`services/validation.py`) and the route-alert ranking engine
(`services/alerts.py`, `api/hazards.py`).

Numbers are modelled as exact reals (`ℝ`); Python's `round(x, n)` is modelled
as round-half-up on the scaled value (Python's float `round` is
round-half-to-even on the nearest representable double; no property below
exercises an exact half-way value, where the two conventions differ).
Database rows are modelled as explicit lists of records, and the external
PostGIS spatial query is modelled through the distance annotation it returns
for each row, following the documented interface the code relies on.
-/

open Real List

/-- Python `round(x, k)`: round to `k` decimal places. -/
noncomputable def pyRound (k : ℕ) (x : ℝ) : ℝ :=
  ((round (x * 10 ^ k) : ℤ) : ℝ) / 10 ^ k

/-- `np.mean`: arithmetic mean of a list (`0` on the empty list, which every
caller below guards against, as the source does). -/
noncomputable def listMean (l : List ℝ) : ℝ :=
  l.sum / l.length

/-- `np.max` on a nonempty list (`0` on the empty list, unreachable in the
guarded callers). -/
noncomputable def listMax : List ℝ → ℝ
  | [] => 0
  | h :: t => t.foldl max h

/-- `np.std`: population standard deviation,
`sqrt(mean((x - mean)²))`. -/
noncomputable def listStd (l : List ℝ) : ℝ :=
  Real.sqrt (listMean (l.map (fun x => (x - listMean l) ^ 2)))

/-- Minimum of a nonempty list of integer timestamps (`min(timestamps)`). -/
def intListMin : List ℤ → ℤ
  | [] => 0
  | h :: t => t.foldl min h

/-- Maximum of a nonempty list of integer timestamps (`max(timestamps)`). -/
def intListMax : List ℤ → ℤ
  | [] => 0
  | h :: t => t.foldl max h

/-! ## `services/validation.py` — `HazardValidationService` -/

/-- `HazardValidationService.calculate_confidence_score`: the ongoing
confidence of an existing hazard, recomputed from accumulated statistics. -/
noncomputable def calculate_confidence_score (detection_count unique_user_count
    days_since_last_detection positive_verifications total_verifications : ℤ) : ℝ :=
  let detection_score : ℝ := min 0.4 (((detection_count : ℝ) / 10) * 0.4)
  let user_score : ℝ := min 0.3 (((unique_user_count : ℝ) / 5) * 0.3)
  let recency_score : ℝ :=
    if days_since_last_detection ≤ 7 then 0.2
    else if days_since_last_detection ≤ 30 then 0.15
    else if days_since_last_detection ≤ 60 then 0.1
    else 0.05
  let verification_score : ℝ :=
    if 0 < total_verifications then
      ((positive_verifications : ℝ) / (total_verifications : ℝ)) * 0.1
    else 0.0
  pyRound 3 (min 1.0 (detection_score + user_score + recency_score + verification_score))

/-- `HazardValidationService.is_outlier`: GPS-accuracy gate, then a z-score
test against the candidate cluster's magnitudes (only once the cluster has at
least 3 magnitude samples and a non-zero standard deviation). -/
noncomputable def is_outlier (maxGpsAccuracy : ℝ) (magnitude accuracy : ℝ)
    (cluster_magnitudes : List ℝ) : Bool :=
  if maxGpsAccuracy < accuracy then true
  else if 3 ≤ cluster_magnitudes.length then
    let mean_mag := listMean cluster_magnitudes
    let std_mag := listStd cluster_magnitudes
    if 0 < std_mag then
      if 2.5 < |(magnitude - mean_mag) / std_mag| then true else false
    else false
  else false

/-- `HazardValidationService.classify_hazard_type`: fixed heuristic over the
cluster's magnitude list (the `severities` argument of the source is unused
by the source body, and is omitted). -/
noncomputable def classify_hazard_type (magnitudes : List ℝ) : String :=
  if magnitudes.isEmpty then "unknown"
  else
    let avg_magnitude := listMean magnitudes
    let max_magnitude := listMax magnitudes
    let magnitude_std := listStd magnitudes
    if 2.5 < avg_magnitude ∧ magnitude_std < 0.5 then "speed_bump"
    else if 3.5 < max_magnitude then "pothole"
    else if 1.5 < avg_magnitude ∧ magnitude_std < 1.0 then "rough_road"
    else "unknown"

/-! ## `services/clustering.py` — severity -/

/-- `SpatialClusteringService.calculate_cluster_severity`: 0–10 severity from
the cluster's detection magnitudes. -/
noncomputable def calculate_cluster_severity (magnitudes : List ℝ) : ℝ :=
  if magnitudes.isEmpty then 0.0
  else
    let avg_magnitude := listMean magnitudes
    let max_magnitude := listMax magnitudes
    let weighted_magnitude := 0.7 * avg_magnitude + 0.3 * max_magnitude
    let severity := min 10.0 ((weighted_magnitude / 5.0) * 10.0)
    pyRound 2 severity

/-! ## Geometric primitives -/

/-- `np.radians`: degrees to radians. -/
noncomputable def radians (x : ℝ) : ℝ := x * π / 180

/-- `np.arctan2 y x`: the quadrant-aware arctangent. -/
noncomputable def arctan2 (y x : ℝ) : ℝ :=
  if 0 < x then arctan (y / x)
  else if x < 0 then (if 0 ≤ y then arctan (y / x) + π else arctan (y / x) - π)
  else if 0 < y then π / 2
  else if y < 0 then -(π / 2)
  else 0

/-- `SpatialClusteringService.haversine_distance`: great-circle distance in
meters between two points given in degrees, Earth radius 6,371,000 m. -/
noncomputable def haversine_distance (lat1 lon1 lat2 lon2 : ℝ) : ℝ :=
  let lat1_rad := radians lat1
  let lat2_rad := radians lat2
  let delta_lat := radians (lat2 - lat1)
  let delta_lon := radians (lon2 - lon1)
  let a := sin (delta_lat / 2) ^ 2 + cos lat1_rad * cos lat2_rad * sin (delta_lon / 2) ^ 2
  let c := 2 * arctan2 (Real.sqrt a) (Real.sqrt (1 - a))
  6371000 * c

/-- The haversine metric of the external clustering library
(`sklearn.cluster.DBSCAN` with `metric="haversine"`), as documented by the
library: inputs are `(lat, lon)` in radians and the result is the central
angle in radians on the unit sphere. -/
noncomputable def sklearn_haversine (lat1 lon1 lat2 lon2 : ℝ) : ℝ :=
  2 * arcsin (Real.sqrt
    (sin ((lat2 - lat1) / 2) ^ 2 + cos lat1 * cos lat2 * sin ((lon2 - lon1) / 2) ^ 2))

theorem radians_zero : radians 0 = 0 := by
  simp [radians]

theorem sklearn_haversine_self (a b : ℝ) : sklearn_haversine a b a b = 0 := by
  simp [sklearn_haversine]

/-- On the equator the library's haversine metric of two radian longitudes
`0` and `t` is exactly `t`. -/
theorem sklearn_haversine_equator (t : ℝ) (h0 : 0 ≤ t) (hpi : t ≤ π) :
    sklearn_haversine 0 0 0 t = t := by
  have hs : 0 ≤ sin (t / 2) :=
    sin_nonneg_of_nonneg_of_le_pi (by linarith) (by linarith [pi_pos])
  have h1 : -(π / 2) ≤ t / 2 := by linarith [pi_pos]
  have h2 : t / 2 ≤ π / 2 := by linarith
  rw [sklearn_haversine]
  simp only [sub_zero, zero_sub, cos_zero, one_mul]
  rw [show (0:ℝ) / 2 = 0 by norm_num]
  rw [sin_zero]
  rw [show (0:ℝ) ^ 2 + sin (t / 2) ^ 2 = sin (t / 2) ^ 2 by ring]
  rw [Real.sqrt_sq hs, arcsin_sin h1 h2]
  ring

/-- The haversine metric is symmetric in its two points. -/
theorem sklearn_haversine_symm (a b c d : ℝ) :
    sklearn_haversine a b c d = sklearn_haversine c d a b := by
  have h1 : sin ((a - c) / 2) ^ 2 = sin ((c - a) / 2) ^ 2 := by
    rw [show a - c = -(c - a) by ring, neg_div, Real.sin_neg]; ring
  have h2 : sin ((b - d) / 2) ^ 2 = sin ((d - b) / 2) ^ 2 := by
    rw [show b - d = -(d - b) by ring, neg_div, Real.sin_neg]; ring
  rw [sklearn_haversine, sklearn_haversine, h1, h2, mul_comm (cos c) (cos a)]

theorem haversine_distance_self (a b : ℝ) : haversine_distance a b a b = 0 := by
  simp [haversine_distance, radians_zero, arctan2]

/-- On the equator, `haversine_distance` of longitudes `0` and `d` degrees is
exactly `6371000 × radians d`, provided the angular separation is below π. -/
theorem haversine_distance_equator (d : ℝ) (h0 : 0 ≤ radians d)
    (hpi : radians d < π) : haversine_distance 0 0 0 d = 6371000 * radians d := by
  have hθ0 : (0:ℝ) ≤ radians d / 2 := by linarith
  have hθ2 : radians d / 2 < π / 2 := by linarith
  have hs : 0 ≤ sin (radians d / 2) :=
    sin_nonneg_of_nonneg_of_le_pi hθ0 (by linarith [pi_pos])
  have hc : 0 < cos (radians d / 2) :=
    cos_pos_of_mem_Ioo ⟨by linarith [pi_pos], hθ2⟩
  rw [haversine_distance]
  simp only [sub_zero]
  rw [radians_zero]
  rw [show (0:ℝ) / 2 = 0 by norm_num, sin_zero, cos_zero]
  rw [show (0:ℝ) ^ 2 + 1 * 1 * sin (radians d / 2) ^ 2 = sin (radians d / 2) ^ 2 by ring]
  rw [Real.sqrt_sq hs]
  rw [show 1 - sin (radians d / 2) ^ 2 = cos (radians d / 2) ^ 2 by
    have := sin_sq_add_cos_sq (radians d / 2); linarith]
  rw [Real.sqrt_sq (le_of_lt hc)]
  rw [arctan2, if_pos hc, ← Real.tan_eq_sin_div_cos,
    arctan_tan (by linarith [pi_pos]) hθ2]
  ring

theorem haversine_distance_symm (a b c d : ℝ) :
    haversine_distance a b c d = haversine_distance c d a b := by
  rw [haversine_distance, haversine_distance]
  simp only [show c - a = -(a - c) by ring, show d - b = -(b - d) by ring,
    radians, neg_mul, neg_div, sin_neg, neg_sq]
  ring_nf

/-! ## DBSCAN (external `sklearn.cluster.DBSCAN` call)

The source delegates clustering to `sklearn.cluster.DBSCAN`; the library is
modelled here by its documented semantics (which the spec restates): a point
is a core point when it has at least `min_samples` neighbors within `eps`
(itself included); clusters grow from core points through chains of core
points; a point reachable from no core point is noise. Border points are
assigned deterministically to the cluster of the least-indexed core point
that reaches them, matching the library's deterministic single assignment. -/

/-- Number of neighbors of `i` (itself included) under adjacency `adj`. -/
def neighborCount (n : ℕ) (adj : Fin n → Fin n → Bool) (i : Fin n) : ℕ :=
  ((List.finRange n).filter (fun j => adj i j)).length

/-- `coreReach n adj core fuel i j`: `j` is reachable from `i` through a chain
of at most `fuel` hops whose every source point is a core point. -/
def coreReach (n : ℕ) (adj : Fin n → Fin n → Bool) (core : Fin n → Bool) :
    ℕ → Fin n → Fin n → Bool
  | 0, i, j => i == j
  | fuel + 1, i, j =>
      i == j ||
        (core i && (List.finRange n).any (fun k => adj i k && coreReach n adj core fuel k j))

/-- The core predicate used by DBSCAN. -/
def isCorePoint (n : ℕ) (adj : Fin n → Fin n → Bool) (minPts : ℕ) (i : Fin n) : Bool :=
  decide (minPts ≤ neighborCount n adj i)

/-- The least-indexed core point reaching `i`, if any (the cluster label of
`i`; `none` marks noise). -/
def dbscanRoot (n : ℕ) (adj : Fin n → Fin n → Bool) (minPts : ℕ) (i : Fin n) :
    Option (Fin n) :=
  ((List.finRange n).filter
    (fun c => isCorePoint n adj minPts c && coreReach n adj (isCorePoint n adj minPts) n c i)).head?

/-- The clusters, as lists of point indices grouped by label. -/
def dbscanClusters (n : ℕ) (adj : Fin n → Fin n → Bool) (minPts : ℕ) :
    List (List (Fin n)) :=
  (List.finRange n).filterMap (fun c =>
    if dbscanRoot n adj minPts c = some c then
      some ((List.finRange n).filter (fun i => dbscanRoot n adj minPts i == some c))
    else none)

/-- The adjacency relation `cluster_detections` hands to the library: the
library's haversine metric on the radian-converted coordinates, compared
against `eps_meters / 111000` (the source's meters-to-degrees conversion,
handed to a metric whose unit is radians). -/
noncomputable def clusterAdj (detections : List (ℝ × ℝ × ℤ)) (eps_meters : ℝ) :
    Fin detections.length → Fin detections.length → Bool := fun i j =>
  decide (sklearn_haversine
    (radians (detections.get i).1) (radians (detections.get i).2.1)
    (radians (detections.get j).1) (radians (detections.get j).2.1) ≤ eps_meters / 111000)

/-- `SpatialClusteringService.cluster_detections`: DBSCAN over
`(lat, lon, id)` triples, `eps` converted from meters to degrees by the fixed
`/ 111000` approximation, coordinates converted to radians, and the library's
haversine metric. -/
noncomputable def cluster_detections (detections : List (ℝ × ℝ × ℤ))
    (eps_meters : ℝ) (min_samples : ℕ) : List (List ℤ) :=
  if detections.length < min_samples then []
  else
    (dbscanClusters detections.length (clusterAdj detections eps_meters) min_samples).map
      (fun c => c.map (fun i => (detections.get i).2.2))

/-- Three co-located points with `min_samples = 3` and a non-negative radius
always form one cluster containing all three ids, in input order. -/
theorem clusterAdj_three_same (lat lon : ℝ) (a b c : ℤ) (eps : ℝ) (heps : 0 ≤ eps) :
    clusterAdj [(lat, lon, a), (lat, lon, b), (lat, lon, c)] eps = fun _ _ => true := by
  funext i j
  simp only [clusterAdj, decide_eq_true_eq]
  have hnn : (0:ℝ) ≤ eps / 111000 := by positivity
  fin_cases i <;> fin_cases j <;>
    simpa [List.get, sklearn_haversine_self] using hnn

theorem cluster_detections_three_same (lat lon : ℝ) (a b c : ℤ) (eps : ℝ)
    (heps : 0 ≤ eps) :
    cluster_detections [(lat, lon, a), (lat, lon, b), (lat, lon, c)] eps 3 = [[a, b, c]] := by
  rw [cluster_detections, if_neg (by simp)]
  rw [clusterAdj_three_same lat lon a b c eps heps]
  rw [show dbscanClusters (List.length [(lat, lon, a), (lat, lon, b), (lat, lon, c)])
        (fun _ _ => true) 3
      = [[⟨0, by simp⟩, ⟨1, by simp⟩, ⟨2, by simp⟩]] from
    (by decide : dbscanClusters 3 (fun _ _ => true) 3 = [[0, 1, 2]])]
  simp [List.get]

/-- The spec's reachability: chains over the input points whose consecutive
points are within `eps_meters` of great-circle (haversine) distance.  (The
spec further restricts chain sources to core points; dropping the restriction
only enlarges the relation, which strengthens every negative statement proved
about it.) -/
def specChainReachable (detections : List (ℝ × ℝ × ℤ)) (eps_meters : ℝ) :
    Fin detections.length → Fin detections.length → Prop :=
  Relation.ReflTransGen (fun i j =>
    haversine_distance (detections.get i).1 (detections.get i).2.1
      (detections.get j).1 (detections.get j).2.1 ≤ eps_meters)

/-- The two points of the C2 scenario: both on the equator, longitudes `0`
and `0.01` degrees. -/
noncomputable def pairPoints : List (ℝ × ℝ × ℤ) := [(0, 0, 0), (0, 1 / 100, 1)]

theorem radians_centi_nonneg : 0 ≤ radians (1 / 100) := by
  rw [radians]; positivity

theorem radians_centi_lt_pi : radians (1 / 100) < π := by
  rw [radians]; nlinarith [pi_pos]

/-- The code-side adjacency of the two scenario points at `eps = 50` m is
everywhere true: their central angle `π/18000` is below `50/111000`. -/
theorem clusterAdj_pair : clusterAdj pairPoints 50 = fun _ _ => true := by
  have key : sklearn_haversine 0 0 0 (radians (1 / 100)) ≤ 50 / 111000 := by
    rw [sklearn_haversine_equator (radians (1 / 100)) radians_centi_nonneg
      (le_of_lt radians_centi_lt_pi), radians]
    nlinarith [pi_lt_d2]
  funext i j
  simp only [clusterAdj, decide_eq_true_eq]
  fin_cases i <;> fin_cases j
  · simpa [pairPoints, List.get, sklearn_haversine_self] using (by norm_num : (0:ℝ) ≤ 50 / 111000)
  · simpa [pairPoints, List.get, radians_zero] using key
  · simp only [pairPoints, List.get]
    rw [radians_zero, sklearn_haversine_symm]
    exact key
  · simpa [pairPoints, List.get, sklearn_haversine_self] using (by norm_num : (0:ℝ) ≤ 50 / 111000)

/-- The code clusters the two scenario points together at `eps = 50` m. -/
theorem cluster_detections_pair : cluster_detections pairPoints 50 2 = [[0, 1]] := by
  rw [cluster_detections, if_neg (by simp [pairPoints])]
  rw [clusterAdj_pair]
  rw [show dbscanClusters pairPoints.length (fun _ _ => true) 2
      = [[⟨0, by simp [pairPoints]⟩, ⟨1, by simp [pairPoints]⟩]] from
    (by decide : dbscanClusters 2 (fun _ _ => true) 2 = [[0, 1]])]
  simp [pairPoints, List.get]

/-- The actual great-circle distance of the two scenario points:
`6371000 × π / 18000 ≈ 1112` m, far above the configured 50 m. -/
theorem pair_distance_gt : 50 < haversine_distance 0 0 0 (1 / 100) := by
  rw [haversine_distance_equator (1 / 100) radians_centi_nonneg radians_centi_lt_pi, radians]
  nlinarith [pi_gt_three]

/-- No spec-side chain (steps of haversine distance ≤ 50 m) connects the two
scenario points. -/
theorem pair_not_specChainReachable :
    ¬ specChainReachable pairPoints 50 ⟨0, by simp [pairPoints]⟩ ⟨1, by simp [pairPoints]⟩ := by
  intro h
  have hstuck : ∀ j, specChainReachable pairPoints 50 ⟨0, by simp [pairPoints]⟩ j →
      j = ⟨0, by simp [pairPoints]⟩ := by
    intro j hj
    induction hj with
    | refl => rfl
    | tail _h1 h2 ih =>
        rename_i b cc
        subst ih
        fin_cases cc
        · rfl
        · exact absurd h2 (not_le.mpr pair_distance_gt)
  exact absurd (hstuck _ h) (by simp [Fin.ext_iff])

/-! ## `services/alerts.py` — `AlertService`

The hazard store is external (PostGIS); following the interface the code
relies on, the spatial query is modelled over a list of hazard rows each
annotated with `distance`, the engine-computed geodesic distance from the
query point: the query filters active rows within the radius, orders by
distance ascending and truncates to the requested limit.  Message rendering
(`_generate_alert_message`) is pure string formatting and is not modelled. -/

/-- The configuration surface read by `AlertService.__init__`. -/
structure AlertCfg where
  minAlertDistance : ℝ
  maxAlertDistance : ℝ
  suppressionRadius : ℝ

/-- One row of the external spatial query result (`hazards` table columns the
query selects, plus the engine's `ST_Distance` annotation). -/
structure HazardAlertRow where
  id : ℕ
  latitude : ℝ
  longitude : ℝ
  hazardType : String
  severity : ℝ
  confidence : ℝ
  isActive : Bool
  distance : ℝ

/-- One intermediate alert dict built by `get_alerts_for_route`. -/
structure AlertItem where
  hazard_id : ℕ
  distance : ℝ
  severity : ℝ
  confidence : ℝ
  latitude : ℝ
  longitude : ℝ
  hazardType : String
  priority : ℝ

/-- `AlertService.calculate_alert_distance`: base lead time 20 s scaled by a
severity factor in `[0.5, 1]`, times speed, clamped to the configured bounds,
rounded to 1 decimal. -/
noncomputable def calculate_alert_distance (cfg : AlertCfg) (speed_mps severity : ℝ) : ℝ :=
  let base_lead_time : ℝ := 20.0
  let severity_factor : ℝ := 0.5 + (severity / 10) * 0.5
  let lead_time := base_lead_time * severity_factor
  let distance := speed_mps * lead_time
  pyRound 1 (max cfg.minAlertDistance (min cfg.maxAlertDistance distance))

/-- `AlertService.calculate_priority_score`. -/
noncomputable def calculate_priority_score (cfg : AlertCfg)
    (distance severity confidence : ℝ) : ℝ :=
  let normalized_distance : ℝ := 1.0 - min distance cfg.maxAlertDistance / cfg.maxAlertDistance
  pyRound 3 (severity * confidence * normalized_distance)

/-- The spatial query `get_alerts_for_route` issues: active hazards within
`radius` of the query point, by ascending engine-computed distance, limited. -/
noncomputable def spatialQuery (table : List HazardAlertRow) (radius : ℝ) (lim : ℕ) :
    List HazardAlertRow :=
  ((table.filter (fun h => h.isActive && decide (h.distance ≤ radius))).insertionSort
    (fun a b => a.distance ≤ b.distance)).take lim

/-- The alert dict `get_alerts_for_route` builds for an in-range hazard. -/
noncomputable def mkAlertItem (cfg : AlertCfg) (h : HazardAlertRow) : AlertItem :=
  { hazard_id := h.id, distance := pyRound 1 h.distance, severity := h.severity,
    confidence := h.confidence, latitude := h.latitude, longitude := h.longitude,
    hazardType := h.hazardType,
    priority := calculate_priority_score cfg h.distance h.severity h.confidence }

/-- The candidate loop of `get_alerts_for_route`: keep a hazard only when its
actual distance is at most its own alert-trigger distance. -/
noncomputable def buildAlerts (cfg : AlertCfg) (speed_mps : ℝ)
    (hazards : List HazardAlertRow) : List AlertItem :=
  hazards.filterMap (fun h =>
    if h.distance ≤ calculate_alert_distance cfg speed_mps h.severity then
      some (mkAlertItem cfg h)
    else none)

/-- The greedy acceptance loop of `AlertService._apply_suppression`. -/
noncomputable def suppressLoop (radius : ℝ) : List AlertItem → List AlertItem → List AlertItem
  | [], acc => acc
  | a :: rest, acc =>
      if acc.any (fun s =>
          decide (haversine_distance a.latitude a.longitude s.latitude s.longitude < radius)) then
        suppressLoop radius rest acc
      else
        suppressLoop radius rest (acc ++ [a])

/-- `AlertService._apply_suppression`: sort by priority descending, then
greedily keep every alert not within the suppression radius of an
already-kept one. -/
noncomputable def apply_suppression (cfg : AlertCfg) (alerts : List AlertItem) :
    List AlertItem :=
  suppressLoop cfg.suppressionRadius
    (alerts.insertionSort (fun a b => b.priority ≤ a.priority)) []

/-- `AlertService.get_alerts_for_route`: search radius at worst-case severity
10 (the source's literal `10.0`), spatial query limited to `2 × max_alerts` rows, per-hazard trigger test,
suppression, then the top `max_alerts` by priority. -/
noncomputable def get_alerts_for_route (cfg : AlertCfg) (table : List HazardAlertRow)
    (speed_mps : ℝ) (max_alerts : ℕ) : List AlertItem :=
  let search_radius := calculate_alert_distance cfg speed_mps 10
  let hazards := spatialQuery table search_radius (max_alerts * 2)
  let alerts := buildAlerts cfg speed_mps hazards
  let filtered := apply_suppression cfg alerts
  (filtered.insertionSort (fun a b => b.priority ≤ a.priority)).take max_alerts

/-- The great-circle distance between the positions of two alerts, as
`_apply_suppression` computes it. -/
noncomputable def alertDist (a b : AlertItem) : ℝ :=
  haversine_distance a.latitude a.longitude b.latitude b.longitude

theorem alertDist_symm (a b : AlertItem) : alertDist a b = alertDist b a :=
  haversine_distance_symm _ _ _ _

/-- Two alerts are separated by at least `radius` meters of great-circle
distance. -/
noncomputable def farApart (radius : ℝ) (a b : AlertItem) : Prop :=
  radius ≤ alertDist a b

theorem farApart_symmetric (radius : ℝ) : Symmetric (farApart radius) := by
  intro a b h
  rwa [farApart, alertDist_symm]

theorem suppressLoop_pairwise (radius : ℝ) :
    ∀ (l acc : List AlertItem),
      acc.Pairwise (fun x y => radius ≤ alertDist y x) →
      (suppressLoop radius l acc).Pairwise (fun x y => radius ≤ alertDist y x) := by
  intro l
  induction l with
  | nil => intro acc h; simpa [suppressLoop] using h
  | cons a rest ih =>
      intro acc hacc
      by_cases hc : acc.any (fun s =>
          decide (haversine_distance a.latitude a.longitude s.latitude s.longitude < radius)) = true
      · rw [suppressLoop, if_pos hc]
        exact ih acc hacc
      · rw [suppressLoop, if_neg hc]
        refine ih (acc ++ [a]) ?_
        rw [List.pairwise_append]
        refine ⟨hacc, by simp, ?_⟩
        intro x hx y hy
        rw [List.mem_singleton] at hy
        subst hy
        rw [Bool.not_eq_true, List.any_eq_false] at hc
        have := hc x hx
        simp only [decide_eq_true_eq] at this
        exact le_of_not_lt this

theorem suppressLoop_mem (radius : ℝ) :
    ∀ (l acc : List AlertItem) (x : AlertItem),
      x ∈ suppressLoop radius l acc → x ∈ acc ∨ x ∈ l := by
  intro l
  induction l with
  | nil => intro acc x hx; left; simpa [suppressLoop] using hx
  | cons a rest ih =>
      intro acc x hx
      by_cases hc : acc.any (fun s =>
          decide (haversine_distance a.latitude a.longitude s.latitude s.longitude < radius)) = true
      · rw [suppressLoop, if_pos hc] at hx
        rcases ih acc x hx with h | h
        · exact Or.inl h
        · exact Or.inr (List.mem_cons_of_mem _ h)
      · rw [suppressLoop, if_neg hc] at hx
        rcases ih (acc ++ [a]) x hx with h | h
        · rw [List.mem_append, List.mem_singleton] at h
          rcases h with h | h
          · exact Or.inl h
          · exact Or.inr (h ▸ List.mem_cons_self _ _)
        · exact Or.inr (List.mem_cons_of_mem _ h)

theorem suppressLoop_acc_mem (radius : ℝ) :
    ∀ (l acc : List AlertItem) (x : AlertItem),
      x ∈ acc → x ∈ suppressLoop radius l acc := by
  intro l
  induction l with
  | nil => intro acc x hx; simpa [suppressLoop] using hx
  | cons a rest ih =>
      intro acc x hx
      by_cases hc : acc.any (fun s =>
          decide (haversine_distance a.latitude a.longitude s.latitude s.longitude < radius)) = true
      · rw [suppressLoop, if_pos hc]
        exact ih acc x hx
      · rw [suppressLoop, if_neg hc]
        exact ih (acc ++ [a]) x (List.mem_append_left _ hx)

/-- The greedy loop only ever drops an alert in favour of an already-kept
alert of at least its own priority within the suppression radius. -/
theorem suppressLoop_greedy (radius : ℝ) :
    ∀ (l acc : List AlertItem),
      l.Sorted (fun a b => b.priority ≤ a.priority) →
      (∀ s ∈ acc, ∀ x ∈ l, x.priority ≤ s.priority) →
      ∀ a ∈ l, a ∉ suppressLoop radius l acc →
        ∃ b ∈ suppressLoop radius l acc, alertDist a b < radius ∧ a.priority ≤ b.priority := by
  intro l
  induction l with
  | nil => intro acc _ _ a ha; exact absurd ha (List.not_mem_nil a)
  | cons hd rest ih =>
      intro acc hsorted hacc a ha hnot
      by_cases hc : acc.any (fun s =>
          decide (haversine_distance hd.latitude hd.longitude s.latitude s.longitude < radius)) = true
      · rw [suppressLoop, if_pos hc] at hnot ⊢
        rcases List.mem_cons.mp ha with rfl | hmem
        · rw [List.any_eq_true] at hc
          obtain ⟨s, hs, hdist⟩ := hc
          simp only [decide_eq_true_eq] at hdist
          exact ⟨s, suppressLoop_acc_mem radius rest acc s hs, hdist,
            hacc s hs a (List.mem_cons_self _ _)⟩
        · exact ih acc hsorted.of_cons
            (fun s hs x hx => hacc s hs x (List.mem_cons_of_mem _ hx)) a hmem hnot
      · rw [suppressLoop, if_neg hc] at hnot ⊢
        rcases List.mem_cons.mp ha with rfl | hmem
        · exact absurd (suppressLoop_acc_mem radius rest (acc ++ [a]) a
            (List.mem_append_right _ (List.mem_singleton_self a))) hnot
        · refine ih (acc ++ [hd]) hsorted.of_cons ?_ a hmem hnot
          intro s hs x hx
          rw [List.mem_append, List.mem_singleton] at hs
          rcases hs with hs | rfl
          · exact hacc s hs x (List.mem_cons_of_mem _ hx)
          · exact List.rel_of_sorted_cons hsorted x hx

instance : IsTotal AlertItem (fun a b => b.priority ≤ a.priority) :=
  ⟨fun a b => le_total b.priority a.priority⟩

instance : IsTrans AlertItem (fun a b => b.priority ≤ a.priority) :=
  ⟨fun _ _ _ h1 h2 => le_trans h2 h1⟩

theorem apply_suppression_pairwise (cfg : AlertCfg) (alerts : List AlertItem) :
    (apply_suppression cfg alerts).Pairwise (farApart cfg.suppressionRadius) := by
  have h := suppressLoop_pairwise cfg.suppressionRadius
    (alerts.insertionSort (fun a b => b.priority ≤ a.priority)) [] (List.Pairwise.nil)
  rw [apply_suppression]
  exact h.imp (fun {x y} hxy => (farApart_symmetric _) hxy)

theorem apply_suppression_mem (cfg : AlertCfg) (alerts : List AlertItem) (x : AlertItem)
    (hx : x ∈ apply_suppression cfg alerts) : x ∈ alerts := by
  rw [apply_suppression] at hx
  rcases suppressLoop_mem _ _ _ _ hx with h | h
  · exact absurd h (List.not_mem_nil x)
  · exact (List.perm_insertionSort _ alerts).mem_iff.mp h

theorem apply_suppression_greedy (cfg : AlertCfg) (alerts : List AlertItem) :
    ∀ a ∈ alerts, a ∉ apply_suppression cfg alerts →
      ∃ b ∈ apply_suppression cfg alerts,
        alertDist a b < cfg.suppressionRadius ∧ a.priority ≤ b.priority := by
  intro a ha hnot
  rw [apply_suppression] at hnot ⊢
  exact suppressLoop_greedy cfg.suppressionRadius
    (alerts.insertionSort (fun a b => b.priority ≤ a.priority)) []
    (List.sorted_insertionSort _ alerts) (by simp)
    a ((List.perm_insertionSort _ alerts).mem_iff.mpr ha) hnot

theorem get_alerts_pairwise (cfg : AlertCfg) (table : List HazardAlertRow)
    (speed_mps : ℝ) (max_alerts : ℕ) :
    (get_alerts_for_route cfg table speed_mps max_alerts).Pairwise
      (farApart cfg.suppressionRadius) := by
  rw [get_alerts_for_route]
  have h1 := apply_suppression_pairwise cfg
    (buildAlerts cfg speed_mps
      (spatialQuery table (calculate_alert_distance cfg speed_mps 10) (max_alerts * 2)))
  have h2 := ((List.perm_insertionSort (fun a b : AlertItem => b.priority ≤ a.priority)
      _).symm.pairwise_iff
    (fun {x y} hxy => (farApart_symmetric cfg.suppressionRadius) hxy)).mp h1
  exact h2.sublist (List.take_sublist _ _)

theorem get_alerts_from_query (cfg : AlertCfg) (table : List HazardAlertRow)
    (speed_mps : ℝ) (max_alerts : ℕ) :
    ∀ a ∈ get_alerts_for_route cfg table speed_mps max_alerts,
      ∃ h ∈ spatialQuery table (calculate_alert_distance cfg speed_mps 10) (max_alerts * 2),
        a.hazard_id = h.id ∧ h.distance ≤ calculate_alert_distance cfg speed_mps h.severity := by
  intro a ha
  rw [get_alerts_for_route] at ha
  have h1 : a ∈ apply_suppression cfg
      (buildAlerts cfg speed_mps
        (spatialQuery table (calculate_alert_distance cfg speed_mps 10) (max_alerts * 2))) :=
    (List.perm_insertionSort (fun a b : AlertItem => b.priority ≤ a.priority) _).mem_iff.mp
      (List.take_sublist _ _ |>.mem ha)
  have h2 := apply_suppression_mem cfg _ a h1
  rw [buildAlerts, List.mem_filterMap] at h2
  obtain ⟨h, hmem, heq⟩ := h2
  by_cases hcond : h.distance ≤ calculate_alert_distance cfg speed_mps h.severity
  · rw [if_pos hcond] at heq
    refine ⟨h, hmem, ?_, hcond⟩
    cases heq
    rfl
  · rw [if_neg hcond] at heq
    cases heq

/-! ### Concrete alert scenarios -/

/-- The default alert configuration (`core/config.py`): min 50 m,
max 1000 m, suppression 500 m. -/
noncomputable def cfgStd : AlertCfg := ⟨50, 1000, 500⟩

theorem calc_alert_distance_20_10 (cfg : AlertCfg) (hmin : cfg.minAlertDistance = 50)
    (hmax : cfg.maxAlertDistance = 1000) : calculate_alert_distance cfg 20 10 = 400 := by
  rw [calculate_alert_distance, hmin, hmax]
  norm_num [pyRound, round_eq, min_def, max_def]

theorem calc_alert_distance_20_8 (cfg : AlertCfg) (hmin : cfg.minAlertDistance = 50)
    (hmax : cfg.maxAlertDistance = 1000) : calculate_alert_distance cfg 20 8 = 360 := by
  rw [calculate_alert_distance, hmin, hmax]
  norm_num [pyRound, round_eq, min_def, max_def]

/-- C4 boundary scenario: the suppression radius is configured to exactly the
great-circle distance between the two hazard positions (equator, longitudes
0 and 1 degree). -/
noncomputable def c4Radius : ℝ := haversine_distance 0 0 0 1

noncomputable def c4Cfg : AlertCfg := ⟨50, 1000, c4Radius⟩

noncomputable def c4RowA : HazardAlertRow := ⟨1, 0, 0, "pothole", 10, 1, true, 100⟩

noncomputable def c4RowB : HazardAlertRow := ⟨2, 0, 1, "pothole", 10, 1, true, 200⟩

noncomputable def c4AlertA : AlertItem := ⟨1, 100, 10, 1, 0, 0, "pothole", 9⟩

noncomputable def c4AlertB : AlertItem := ⟨2, 200, 10, 1, 0, 1, "pothole", 8⟩

theorem c4_spatial : spatialQuery [c4RowA, c4RowB] (calculate_alert_distance c4Cfg 20 10)
    (5 * 2) = [c4RowA, c4RowB] := by
  rw [calc_alert_distance_20_10 c4Cfg rfl rfl, spatialQuery]
  have hf : List.filter (fun h => h.isActive && decide (h.distance ≤ (400:ℝ)))
      [c4RowA, c4RowB] = [c4RowA, c4RowB] := by
    refine List.filter_eq_self.mpr ?_
    intro a ha
    rcases List.mem_cons.mp ha with rfl | ha
    · simp only [c4RowA, Bool.and_eq_true, decide_eq_true_eq]
      norm_num
    · rw [List.mem_singleton] at ha
      subst ha
      simp only [c4RowB, Bool.and_eq_true, decide_eq_true_eq]
      norm_num
  rw [hf]
  rw [List.Sorted.insertionSort_eq (by
    simp only [List.sorted_cons, List.mem_singleton, List.sorted_singleton]
    refine ⟨?_, by simp, List.sorted_nil⟩
    intro b hb
    subst hb
    simp only [c4RowA, c4RowB]
    norm_num)]
  rfl

theorem c4_build : buildAlerts c4Cfg 20 [c4RowA, c4RowB] = [c4AlertA, c4AlertB] := by
  have hcalc := calc_alert_distance_20_10 c4Cfg rfl rfl
  rw [buildAlerts, List.filterMap_cons, List.filterMap_cons, List.filterMap_nil]
  rw [if_pos (by rw [show c4RowA.severity = 10 from rfl, hcalc]; norm_num [c4RowA])]
  rw [if_pos (by rw [show c4RowB.severity = 10 from rfl, hcalc]; norm_num [c4RowB])]
  have hA : mkAlertItem c4Cfg c4RowA = c4AlertA := by
    simp only [mkAlertItem, c4RowA, c4AlertA, calculate_priority_score, c4Cfg]
    norm_num [pyRound, round_eq, min_def]
  have hB : mkAlertItem c4Cfg c4RowB = c4AlertB := by
    simp only [mkAlertItem, c4RowB, c4AlertB, calculate_priority_score, c4Cfg]
    norm_num [pyRound, round_eq, min_def]
  rw [hA, hB]

theorem c4_suppress : apply_suppression c4Cfg [c4AlertA, c4AlertB] = [c4AlertA, c4AlertB] := by
  rw [apply_suppression]
  rw [List.Sorted.insertionSort_eq (by
    simp only [List.sorted_cons, List.mem_singleton, List.sorted_singleton]
    refine ⟨?_, by simp, List.sorted_nil⟩
    intro b hb
    subst hb
    simp only [c4AlertA, c4AlertB]
    norm_num)]
  rw [suppressLoop, if_neg (by simp)]
  rw [suppressLoop, if_neg (by
    simp only [List.nil_append, List.any_cons, List.any_nil, Bool.or_false]
    rw [show c4AlertB.latitude = 0 from rfl, show c4AlertB.longitude = 1 from rfl,
      show c4AlertA.latitude = 0 from rfl, show c4AlertA.longitude = 0 from rfl]
    rw [show c4Cfg.suppressionRadius = c4Radius from rfl]
    rw [decide_eq_false]
    · simp
    · rw [haversine_distance_symm, c4Radius]
      exact lt_irrefl _)]
  rw [suppressLoop]
  rfl

theorem c4_run : get_alerts_for_route c4Cfg [c4RowA, c4RowB] 20 5 = [c4AlertA, c4AlertB] := by
  rw [get_alerts_for_route]
  rw [c4_spatial, c4_build, c4_suppress]
  rw [List.Sorted.insertionSort_eq (by
    simp only [List.sorted_cons, List.mem_singleton, List.sorted_singleton]
    refine ⟨?_, by simp, List.sorted_nil⟩
    intro b hb
    subst hb
    simp only [c4AlertA, c4AlertB]
    norm_num)]
  rfl

/-- If no processed alert is within `radius` of any other candidate or
accumulator entry, the greedy loop keeps everything, in order. -/
theorem suppressLoop_keep_all (radius : ℝ) :
    ∀ (l acc : List AlertItem),
      (∀ a ∈ l, ∀ s ∈ acc ++ l,
        ¬ (haversine_distance a.latitude a.longitude s.latitude s.longitude < radius)) →
      suppressLoop radius l acc = acc ++ l := by
  intro l
  induction l with
  | nil => intro acc _; simp [suppressLoop]
  | cons a rest ih =>
      intro acc h
      rw [suppressLoop, if_neg (by
        rw [Bool.not_eq_true, List.any_eq_false]
        intro s hs
        simp only [decide_eq_true_eq]
        exact h a (List.mem_cons_self _ _) s (List.mem_append_left _ hs))]
      rw [ih (acc ++ [a]) (by
        intro x hx s hs
        refine h x (List.mem_cons_of_mem _ hx) s ?_
        rw [List.append_assoc] at hs
        simpa using hs)]
      simp

/-- C10 scenario: suppression disabled (radius 0), eleven active hazards, the
ten closest at 100 m and hazard 11 at 300 m. -/
noncomputable def c10Cfg : AlertCfg := ⟨50, 1000, 0⟩

noncomputable def mkC10Row (i : ℕ) (d : ℝ) : HazardAlertRow :=
  ⟨i, 0, 0, "pothole", 10, 1, true, d⟩

noncomputable def c10Table : List HazardAlertRow :=
  [mkC10Row 1 100, mkC10Row 2 100, mkC10Row 3 100, mkC10Row 4 100, mkC10Row 5 100,
   mkC10Row 6 100, mkC10Row 7 100, mkC10Row 8 100, mkC10Row 9 100, mkC10Row 10 100,
   mkC10Row 11 300]

noncomputable def mkC10Alert (i : ℕ) : AlertItem := ⟨i, 100, 10, 1, 0, 0, "pothole", 9⟩

theorem c10_spatial : spatialQuery c10Table (calculate_alert_distance c10Cfg 20 10) (5 * 2)
    = [mkC10Row 1 100, mkC10Row 2 100, mkC10Row 3 100, mkC10Row 4 100, mkC10Row 5 100,
       mkC10Row 6 100, mkC10Row 7 100, mkC10Row 8 100, mkC10Row 9 100, mkC10Row 10 100] := by
  rw [calc_alert_distance_20_10 c10Cfg rfl rfl, spatialQuery]
  rw [List.filter_eq_self.mpr (by
    intro a ha
    rw [c10Table] at ha
    simp only [List.mem_cons, List.not_mem_nil, or_false] at ha
    rcases ha with rfl | rfl | rfl | rfl | rfl | rfl | rfl | rfl | rfl | rfl | rfl <;>
      · simp only [mkC10Row, Bool.and_eq_true, decide_eq_true_eq]
        norm_num)]
  rw [List.Sorted.insertionSort_eq (by
    rw [c10Table]
    simp only [List.sorted_cons, List.forall_mem_cons, List.not_mem_nil, List.sorted_nil]
    norm_num [mkC10Row])]
  rw [c10Table]
  rfl

theorem c10_build : buildAlerts c10Cfg 20
    [mkC10Row 1 100, mkC10Row 2 100, mkC10Row 3 100, mkC10Row 4 100, mkC10Row 5 100,
     mkC10Row 6 100, mkC10Row 7 100, mkC10Row 8 100, mkC10Row 9 100, mkC10Row 10 100]
    = [mkC10Alert 1, mkC10Alert 2, mkC10Alert 3, mkC10Alert 4, mkC10Alert 5,
       mkC10Alert 6, mkC10Alert 7, mkC10Alert 8, mkC10Alert 9, mkC10Alert 10] := by
  have hcond : ∀ i : ℕ, (mkC10Row i 100).distance ≤
      calculate_alert_distance c10Cfg 20 (mkC10Row i 100).severity := by
    intro i
    rw [show (mkC10Row i 100).severity = 10 from rfl,
      calc_alert_distance_20_10 c10Cfg rfl rfl]
    show (100:ℝ) ≤ 400
    norm_num
  have hmk : ∀ i : ℕ, mkAlertItem c10Cfg (mkC10Row i 100) = mkC10Alert i := by
    intro i
    simp only [mkAlertItem, mkC10Row, mkC10Alert, calculate_priority_score, c10Cfg]
    norm_num [pyRound, round_eq, min_def]
  rw [buildAlerts]
  simp only [List.filterMap_cons, List.filterMap_nil]
  rw [if_pos (hcond 1), if_pos (hcond 2), if_pos (hcond 3), if_pos (hcond 4),
    if_pos (hcond 5), if_pos (hcond 6), if_pos (hcond 7), if_pos (hcond 8),
    if_pos (hcond 9), if_pos (hcond 10)]
  rw [hmk 1, hmk 2, hmk 3, hmk 4, hmk 5, hmk 6, hmk 7, hmk 8, hmk 9, hmk 10]

theorem c10_suppress : apply_suppression c10Cfg
    [mkC10Alert 1, mkC10Alert 2, mkC10Alert 3, mkC10Alert 4, mkC10Alert 5,
     mkC10Alert 6, mkC10Alert 7, mkC10Alert 8, mkC10Alert 9, mkC10Alert 10]
    = [mkC10Alert 1, mkC10Alert 2, mkC10Alert 3, mkC10Alert 4, mkC10Alert 5,
       mkC10Alert 6, mkC10Alert 7, mkC10Alert 8, mkC10Alert 9, mkC10Alert 10] := by
  rw [apply_suppression]
  rw [List.Sorted.insertionSort_eq (by
    simp only [List.sorted_cons, List.forall_mem_cons, List.not_mem_nil, List.sorted_nil]
    norm_num [mkC10Alert])]
  rw [suppressLoop_keep_all c10Cfg.suppressionRadius _ [] (by
    intro a ha s hs
    rw [List.nil_append] at hs
    simp only [List.mem_cons, List.not_mem_nil, or_false] at ha hs
    have ha' : a.latitude = 0 ∧ a.longitude = 0 := by
      rcases ha with rfl | rfl | rfl | rfl | rfl | rfl | rfl | rfl | rfl | rfl <;>
        exact ⟨rfl, rfl⟩
    have hs' : s.latitude = 0 ∧ s.longitude = 0 := by
      rcases hs with rfl | rfl | rfl | rfl | rfl | rfl | rfl | rfl | rfl | rfl <;>
        exact ⟨rfl, rfl⟩
    rw [ha'.1, ha'.2, hs'.1, hs'.2, haversine_distance_self]
    show ¬ ((0:ℝ) < c10Cfg.suppressionRadius)
    rw [show c10Cfg.suppressionRadius = 0 from rfl]
    exact lt_irrefl 0)]
  rw [List.nil_append]

theorem c10_run : get_alerts_for_route c10Cfg c10Table 20 5
    = [mkC10Alert 1, mkC10Alert 2, mkC10Alert 3, mkC10Alert 4, mkC10Alert 5] := by
  rw [get_alerts_for_route, c10_spatial, c10_build, c10_suppress]
  rw [List.Sorted.insertionSort_eq (by
    simp only [List.sorted_cons, List.forall_mem_cons, List.not_mem_nil, List.sorted_nil]
    norm_num [mkC10Alert])]
  rfl

/-! ## `api/admin.py` — `process_detections`

The detection and hazard tables are modelled as lists of records; the
`process_detections` endpoint is a pure state transformer over them.  The
`SELECT ... WHERE processed = false LIMIT n` query carries no ORDER BY; it is
modelled as returning rows in table order.  ORM row mutation is modelled by
mapping over the detection list. -/

/-- One row of the `detections` table (raw sensor triples are never read by
the pipeline and are omitted). -/
structure Det where
  id : ℤ
  userId : ℤ
  latitude : ℝ
  longitude : ℝ
  accuracy : ℝ
  magnitude : ℝ
  timestamp : ℤ
  processed : Bool
  hazardId : Option ℕ

/-- One row of the `hazards` table as `process_detections` creates it. -/
structure HazardRec where
  id : ℕ
  latitude : ℝ
  longitude : ℝ
  hazardType : String
  severity : ℝ
  confidence : ℝ
  detectionCount : ℕ
  uniqueUserCount : ℕ
  verificationCount : ℕ
  positiveVerifications : ℕ
  firstDetected : ℤ
  lastDetected : ℤ
  isActive : Bool
  isVerified : Bool

/-- The mutable store the pipeline runs against. -/
structure DBState where
  detections : List Det
  hazards : List HazardRec
  nextHazardId : ℕ

/-- The configuration surface `SpatialClusteringService.__init__` reads:
`SPATIAL_CLUSTER_RADIUS_METERS` and `MIN_DETECTIONS_FOR_HAZARD`. -/
structure PassCfg where
  epsMeters : ℝ
  minSamples : ℕ

/-- The summary counters the endpoint returns. -/
structure PassResult where
  detectionsTotal : ℕ
  detectionsProcessed : ℕ
  detectionsMarkedNoise : ℕ
  hazardsCreated : ℕ
  clustersFound : ℕ
deriving DecidableEq

/-- `SpatialClusteringService.get_unprocessed_detections`: rows with
`processed = false`, limited, projected to `(lat, lon, id)`. -/
def get_unprocessed_detections (dets : List Det) (lim : ℕ) : List (ℝ × ℝ × ℤ) :=
  ((dets.filter (fun d => !d.processed)).take lim).map (fun d => (d.latitude, d.longitude, d.id))

/-- `SpatialClusteringService.calculate_cluster_centroid` (the source raises
`ValueError` on an empty cluster; the pipeline only calls it on nonempty
member lists). -/
noncomputable def calculate_cluster_centroid (coords : List (ℝ × ℝ × ℤ)) : ℝ × ℝ :=
  (listMean (coords.map (·.1)), listMean (coords.map (·.2.1)))

/-- `len(set(d.user_id for d in cluster_detections))`. -/
def uniqueUsers (members : List Det) : ℕ :=
  (members.map (·.userId)).dedup.length

/-- The `Hazard(...)` row `process_detections` creates for one cluster:
centroid location, severity from member magnitudes, creation-time confidence
`min(1, 0.1·count + 0.2·users)` rounded to 2 decimals, temporal bounds, and
the literal hazard type `"unknown"`. -/
noncomputable def mkHazard (hid : ℕ) (members : List Det) : HazardRec :=
  let centroid := calculate_cluster_centroid
    (members.map (fun d => (d.latitude, d.longitude, d.id)))
  { id := hid,
    latitude := centroid.1,
    longitude := centroid.2,
    hazardType := "unknown",
    severity := calculate_cluster_severity (members.map (·.magnitude)),
    confidence := pyRound 2
      (min 1.0 ((members.length : ℝ) * 0.1 + (uniqueUsers members : ℝ) * 0.2)),
    detectionCount := members.length,
    uniqueUserCount := uniqueUsers members,
    verificationCount := 0,
    positiveVerifications := 0,
    firstDetected := intListMin (members.map (·.timestamp)),
    lastDetected := intListMax (members.map (·.timestamp)),
    isActive := true,
    isVerified := false }

/-- The per-cluster row mutation: every detection row whose id is in the
cluster is marked processed and linked to the created hazard. -/
def linkCluster (hid : ℕ) (cids : List ℤ) (dets : List Det) : List Det :=
  dets.map (fun d =>
    if cids.contains d.id then { d with processed := true, hazardId := some hid } else d)

/-- The cluster loop of `process_detections`: for each cluster, fetch its
member rows, skip if none, otherwise create the hazard row and link the
members.  Returns the new state, the ids gathered into
`detection_ids_in_clusters`, `detections_processed` and `hazards_created`. -/
noncomputable def processClusters : List (List ℤ) → DBState → DBState × List ℤ × ℕ × ℕ
  | [], st => (st, [], 0, 0)
  | c :: rest, st =>
      let members := st.detections.filter (fun d => c.contains d.id)
      if members.isEmpty then processClusters rest st
      else
        let hid := st.nextHazardId
        let st' : DBState :=
          { detections := linkCluster hid c st.detections,
            hazards := st.hazards ++ [mkHazard hid members],
            nextHazardId := hid + 1 }
        let r := processClusters rest st'
        (r.1, members.map (·.id) ++ r.2.1, members.length + r.2.2.1, 1 + r.2.2.2)

/-- The clusters one pass computes from its fetched batch. -/
noncomputable def passClusters (cfg : PassCfg) (st : DBState) : List (List ℤ) :=
  cluster_detections (get_unprocessed_detections st.detections 10000)
    cfg.epsMeters cfg.minSamples

/-- `process_detections` (`POST /admin/process-detections`): fetch the
unprocessed batch (limit 10000), terminate as a no-op when empty, cluster,
create and link one hazard per cluster, then mark every fetched id that
belongs to no cluster as processed noise. -/
noncomputable def process_detections (cfg : PassCfg) (st : DBState) : DBState × PassResult :=
  let unprocessed := get_unprocessed_detections st.detections 10000
  if unprocessed.isEmpty then
    (st, ⟨0, 0, 0, 0, 0⟩)
  else
    let clusters := passClusters cfg st
    let r := processClusters clusters st
    let idsInClusters := r.2.1
    let allIds := unprocessed.map (·.2.2)
    let noiseIds := allIds.filter (fun i => !idsInClusters.contains i)
    let st2 : DBState :=
      { r.1 with detections := r.1.detections.map (fun d =>
          if noiseIds.contains d.id then { d with processed := true } else d) }
    (st2, ⟨unprocessed.length, r.2.2.1, noiseIds.length, r.2.2.2, clusters.length⟩)

/-- How one pipeline pass may change a detection row: identity and sensor
fields are never written, `processed` is only ever set (never cleared), and a
hazard link is never removed. -/
def DetEvolves (d d' : Det) : Prop :=
  d'.id = d.id ∧ d'.userId = d.userId ∧ d'.latitude = d.latitude ∧
  d'.longitude = d.longitude ∧ d'.accuracy = d.accuracy ∧
  d'.magnitude = d.magnitude ∧ d'.timestamp = d.timestamp ∧
  (d.processed = true → d'.processed = true) ∧
  (d.hazardId.isSome = true → d'.hazardId.isSome = true)

theorem DetEvolves_refl (d : Det) : DetEvolves d d :=
  ⟨rfl, rfl, rfl, rfl, rfl, rfl, rfl, id, id⟩

theorem DetEvolves_trans {a b c : Det} (h1 : DetEvolves a b) (h2 : DetEvolves b c) :
    DetEvolves a c :=
  ⟨h2.1.trans h1.1, h2.2.1.trans h1.2.1, h2.2.2.1.trans h1.2.2.1,
   h2.2.2.2.1.trans h1.2.2.2.1, h2.2.2.2.2.1.trans h1.2.2.2.2.1,
   h2.2.2.2.2.2.1.trans h1.2.2.2.2.2.1, h2.2.2.2.2.2.2.1.trans h1.2.2.2.2.2.2.1,
   fun h => h2.2.2.2.2.2.2.2.1 (h1.2.2.2.2.2.2.2.1 h),
   fun h => h2.2.2.2.2.2.2.2.2 (h1.2.2.2.2.2.2.2.2 h)⟩

/-- Positionwise evolution of the whole detection table. -/
def StateEvolves (l l' : List Det) : Prop := List.Forall₂ DetEvolves l l'

theorem StateEvolves_refl (l : List Det) : StateEvolves l l :=
  List.forall₂_same.mpr (fun d _ => DetEvolves_refl d)

theorem StateEvolves_trans {a b c : List Det} (h1 : StateEvolves a b)
    (h2 : StateEvolves b c) : StateEvolves a c := by
  rw [StateEvolves, List.forall₂_iff_get] at h1 h2 ⊢
  refine ⟨h1.1.trans h2.1, ?_⟩
  intro i h h'
  exact DetEvolves_trans (h1.2 i h (h1.1 ▸ h)) (h2.2 i (h1.1 ▸ h) h')

theorem linkCluster_evolves (hid : ℕ) (c : List ℤ) (l : List Det) :
    StateEvolves l (linkCluster hid c l) := by
  rw [StateEvolves, linkCluster, List.forall₂_map_right_iff]
  refine List.forall₂_same.mpr (fun d _ => ?_)
  by_cases hc : c.contains d.id = true
  · rw [if_pos hc]
    exact ⟨rfl, rfl, rfl, rfl, rfl, rfl, rfl, fun _ => rfl, fun _ => rfl⟩
  · rw [if_neg hc]
    exact DetEvolves_refl d

theorem noiseMark_evolves (ids : List ℤ) (l : List Det) :
    StateEvolves l (l.map (fun d =>
      if ids.contains d.id then { d with processed := true } else d)) := by
  rw [StateEvolves, List.forall₂_map_right_iff]
  refine List.forall₂_same.mpr (fun d _ => ?_)
  by_cases hc : ids.contains d.id = true
  · rw [if_pos hc]
    exact ⟨rfl, rfl, rfl, rfl, rfl, rfl, rfl, fun _ => rfl, fun h => h⟩
  · rw [if_neg hc]
    exact DetEvolves_refl d

/-- Filtering by cluster membership (a condition on the never-written `id`
field) commutes with evolution. -/
theorem filter_members_evolves {l l' : List Det} (c : List ℤ) (h : StateEvolves l l') :
    StateEvolves (l.filter (fun d => c.contains d.id))
      (l'.filter (fun d => c.contains d.id)) := by
  induction h with
  | nil => exact List.Forall₂.nil
  | cons hd htail ih =>
      rename_i a b l₁ l₂
      rw [List.filter_cons, List.filter_cons, hd.1]
      by_cases hc : c.contains a.id = true
      · rw [if_pos hc, if_pos hc]
        exact List.Forall₂.cons hd ih
      · rw [if_neg hc, if_neg hc]
        exact ih

/-- Projections of never-written fields agree along evolution. -/
theorem map_eq_of_evolves {l l' : List Det} (f : Det → α)
    (hf : ∀ d d', DetEvolves d d' → f d' = f d) (h : StateEvolves l l') :
    l'.map f = l.map f := by
  induction h with
  | nil => rfl
  | cons hd _htail ih => simp only [List.map_cons, hf _ _ hd, ih]

/-- The scoring statistics `process_detections` stores on a created hazard,
as functions of the full member list of its cluster. -/
def hazardStats (h : HazardRec) (members : List Det) : Prop :=
  h.hazardType = "unknown" ∧
  h.detectionCount = members.length ∧
  h.severity = calculate_cluster_severity (members.map (·.magnitude)) ∧
  h.confidence = pyRound 2
    (min 1.0 ((members.length : ℝ) * 0.1 + (uniqueUsers members : ℝ) * 0.2)) ∧
  h.uniqueUserCount = uniqueUsers members ∧
  h.firstDetected = intListMin (members.map (·.timestamp)) ∧
  h.lastDetected = intListMax (members.map (·.timestamp))

theorem mkHazard_stats (hid : ℕ) (members : List Det) :
    hazardStats (mkHazard hid members) members :=
  ⟨rfl, rfl, rfl, rfl, rfl, rfl, rfl⟩

theorem uniqueUsers_eq_of_evolves {l l' : List Det} (h : StateEvolves l l') :
    uniqueUsers l' = uniqueUsers l := by
  rw [uniqueUsers, uniqueUsers, map_eq_of_evolves (·.userId) (fun _ _ hd => hd.2.1) h]

theorem hazardStats_of_evolves {h : HazardRec} {l l' : List Det}
    (he : StateEvolves l l') (hs : hazardStats h l') : hazardStats h l := by
  obtain ⟨h1, h2, h3, h4, h5, h6, h7⟩ := hs
  refine ⟨h1, ?_, ?_, ?_, ?_, ?_, ?_⟩
  · rw [h2, he.length_eq]
  · rw [h3, map_eq_of_evolves (·.magnitude) (fun _ _ hd => hd.2.2.2.2.2.1) he]
  · rw [h4, uniqueUsers_eq_of_evolves he, he.length_eq]
  · rw [h5, uniqueUsers_eq_of_evolves he]
  · rw [h6, map_eq_of_evolves (·.timestamp) (fun _ _ hd => hd.2.2.2.2.2.2.1) he]
  · rw [h7, map_eq_of_evolves (·.timestamp) (fun _ _ hd => hd.2.2.2.2.2.2.1) he]

/-- The cluster loop: the detection table evolves, hazard rows are only
appended, every appended row carries type `"unknown"`, and every cluster
whose member fetch is nonempty contributes one hazard row whose statistics
are computed from that full member list. -/
theorem processClusters_spec (clusters : List (List ℤ)) : ∀ (st : DBState),
    StateEvolves st.detections (processClusters clusters st).1.detections ∧
    (∀ h ∈ st.hazards, h ∈ (processClusters clusters st).1.hazards) ∧
    (∀ h ∈ (processClusters clusters st).1.hazards,
      h ∈ st.hazards ∨ h.hazardType = "unknown") ∧
    (∀ c ∈ clusters, st.detections.filter (fun d => c.contains d.id) ≠ [] →
      ∃ h ∈ (processClusters clusters st).1.hazards,
        hazardStats h (st.detections.filter (fun d => c.contains d.id))) := by
  induction clusters with
  | nil =>
      intro st
      exact ⟨StateEvolves_refl _, fun h hh => hh, fun h hh => Or.inl hh, by simp⟩
  | cons c rest ih =>
      intro st
      rw [processClusters]
      by_cases hm : (st.detections.filter (fun d => c.contains d.id)).isEmpty = true
      · rw [if_pos hm]
        obtain ⟨e1, e2, e3, e4⟩ := ih st
        refine ⟨e1, e2, e3, ?_⟩
        intro c' hc' hne
        rcases List.mem_cons.mp hc' with rfl | hc'
        · exact absurd (List.isEmpty_iff.mp hm) hne
        · exact e4 c' hc' hne
      · rw [if_neg hm]
        set members := st.detections.filter (fun d => c.contains d.id) with hmembers
        set st' : DBState :=
          { detections := linkCluster st.nextHazardId c st.detections,
            hazards := st.hazards ++ [mkHazard st.nextHazardId members],
            nextHazardId := st.nextHazardId + 1 } with hst'
        obtain ⟨e1, e2, e3, e4⟩ := ih st'
        have hlink : StateEvolves st.detections st'.detections :=
          linkCluster_evolves st.nextHazardId c st.detections
        refine ⟨StateEvolves_trans hlink e1, ?_, ?_, ?_⟩
        · intro h hh
          exact e2 h (List.mem_append_left _ hh)
        · intro h hh
          rcases e3 h hh with hh' | hh'
          · rcases List.mem_append.mp hh' with hh'' | hh''
            · exact Or.inl hh''
            · rw [List.mem_singleton] at hh''
              exact Or.inr (hh'' ▸ rfl)
          · exact Or.inr hh'
        · intro c' hc' hne
          rcases List.mem_cons.mp hc' with rfl | hc'
          · refine ⟨mkHazard st.nextHazardId members,
              e2 _ (List.mem_append_right _ (List.mem_singleton_self _)), ?_⟩
            exact mkHazard_stats _ _
          · have hev : StateEvolves (st.detections.filter (fun d => c'.contains d.id))
                (st'.detections.filter (fun d => c'.contains d.id)) :=
              filter_members_evolves c' hlink
            have hne' : st'.detections.filter (fun d => c'.contains d.id) ≠ [] := by
              intro h0
              apply hne
              have := hev.length_eq
              rw [h0, List.length_nil, List.length_eq_zero] at this
              exact this
            obtain ⟨h, hmem, hstats⟩ := e4 c' hc' hne'
            exact ⟨h, hmem, hazardStats_of_evolves hev hstats⟩

theorem processClusters_nil (st : DBState) : processClusters [] st = (st, [], 0, 0) := rfl

theorem processClusters_cons (c : List ℤ) (rest : List (List ℤ)) (st : DBState) :
    processClusters (c :: rest) st =
      (let members := st.detections.filter (fun d => c.contains d.id)
       if members.isEmpty then processClusters rest st
       else
         let hid := st.nextHazardId
         let st' : DBState :=
           { detections := linkCluster hid c st.detections,
             hazards := st.hazards ++ [mkHazard hid members],
             nextHazardId := hid + 1 }
         let r := processClusters rest st'
         (r.1, members.map (·.id) ++ r.2.1, members.length + r.2.2.1, 1 + r.2.2.2)) := rfl

theorem StateEvolves.get {l l' : List Det} (he : StateEvolves l l') (i : ℕ)
    (h : i < l.length) (h' : i < l'.length) :
    DetEvolves (l.get ⟨i, h⟩) (l'.get ⟨i, h'⟩) :=
  (List.forall₂_iff_get.mp he).2 i h h'

theorem linkCluster_length (hid : ℕ) (c : List ℤ) (l : List Det) :
    (linkCluster hid c l).length = l.length := by
  simp [linkCluster]

theorem linkCluster_get (hid : ℕ) (c : List ℤ) (l : List Det) (i : ℕ)
    (h : i < l.length) (h' : i < (linkCluster hid c l).length) :
    (linkCluster hid c l).get ⟨i, h'⟩ =
      if c.contains (l.get ⟨i, h⟩).id then
        { l.get ⟨i, h⟩ with processed := true, hazardId := some hid }
      else l.get ⟨i, h⟩ := by
  simp [linkCluster, List.get_map]

/-- A placeholder row for positional (`getD`) reasoning. -/
noncomputable def dummyDet : Det := ⟨0, 0, 0, 0, 0, 0, 0, false, none⟩

theorem getD_map_lt (f : Det → Det) (l : List Det) (i : ℕ) (h : i < l.length) :
    (l.map f).getD i dummyDet = f (l.getD i dummyDet) := by
  rw [List.getD_eq_get l dummyDet h, List.getD_eq_get (l.map f) dummyDet (by simpa using h)]
  simp [List.get_map]

theorem StateEvolves.getD {l l' : List Det} (he : StateEvolves l l') (i : ℕ)
    (h : i < l.length) : DetEvolves (l.getD i dummyDet) (l'.getD i dummyDet) := by
  have h' : i < l'.length := he.length_eq ▸ h
  rw [List.getD_eq_get l dummyDet h, List.getD_eq_get l' dummyDet h']
  exact he.get i h h'

theorem getD_mem {l : List Det} (i : ℕ) (h : i < l.length) : l.getD i dummyDet ∈ l := by
  rw [List.getD_eq_get l dummyDet h]
  exact List.get_mem _ _ _

/-- Positionwise effect of the cluster loop: a fetched row whose id lies in
some cluster ends processed and linked; a row whose id lies in no cluster is
untouched. -/
theorem processClusters_get (clusters : List (List ℤ)) : ∀ (st : DBState)
    (i : ℕ), i < st.detections.length →
    ((∃ c ∈ clusters, (st.detections.getD i dummyDet).id ∈ c) →
      (((processClusters clusters st).1.detections.getD i dummyDet).processed = true ∧
       ((processClusters clusters st).1.detections.getD i dummyDet).hazardId.isSome = true)) ∧
    ((∀ c ∈ clusters, (st.detections.getD i dummyDet).id ∉ c) →
      (processClusters clusters st).1.detections.getD i dummyDet =
        st.detections.getD i dummyDet) := by
  induction clusters with
  | nil =>
      intro st i _h
      rw [processClusters_nil]
      exact ⟨fun hex => absurd hex (by simp), fun _ => rfl⟩
  | cons c rest ih =>
      intro st i h
      rw [processClusters]
      by_cases hm : (st.detections.filter (fun d => c.contains d.id)).isEmpty = true
      · rw [if_pos hm]
        obtain ⟨p1, p2⟩ := ih st i h
        refine ⟨?_, ?_⟩
        · rintro ⟨c', hc', hid⟩
          rcases List.mem_cons.mp hc' with rfl | hc'
          · exfalso
            have hmem : st.detections.getD i dummyDet ∈
                st.detections.filter (fun d => c'.contains d.id) := by
              rw [List.mem_filter]
              exact ⟨getD_mem i h, by simpa using hid⟩
            rw [List.isEmpty_iff.mp hm] at hmem
            exact absurd hmem (List.not_mem_nil _)
          · exact p1 ⟨c', hc', hid⟩
        · intro hall
          exact p2 (fun c' hc' => hall c' (List.mem_cons_of_mem _ hc'))
      · rw [if_neg hm]
        set members := st.detections.filter (fun d => c.contains d.id) with hmembers
        set st' : DBState :=
          { detections := linkCluster st.nextHazardId c st.detections,
            hazards := st.hazards ++ [mkHazard st.nextHazardId members],
            nextHazardId := st.nextHazardId + 1 } with hst'
        have hlen : i < st'.detections.length := by
          rw [hst']
          show i < (linkCluster st.nextHazardId c st.detections).length
          rw [linkCluster_length]
          exact h
        have hget : st'.detections.getD i dummyDet =
            (if c.contains (st.detections.getD i dummyDet).id then
              { st.detections.getD i dummyDet with
                processed := true, hazardId := some st.nextHazardId }
             else st.detections.getD i dummyDet) := by
          rw [hst']
          show (linkCluster st.nextHazardId c st.detections).getD i dummyDet = _
          rw [linkCluster]
          exact getD_map_lt _ _ i h
        obtain ⟨p1, p2⟩ := ih st' i hlen
        have hidkeep : (st'.detections.getD i dummyDet).id =
            (st.detections.getD i dummyDet).id := by
          rw [hget]
          by_cases hc : c.contains (st.detections.getD i dummyDet).id = true
          · rw [if_pos hc]
          · rw [if_neg hc]
        refine ⟨?_, ?_⟩
        · rintro ⟨c', hc', hid⟩
          rcases List.mem_cons.mp hc' with rfl | hc'
          · have hcond : c'.contains (st.detections.getD i dummyDet).id = true := by
              simpa using hid
            have hproc : (st'.detections.getD i dummyDet).processed = true ∧
                (st'.detections.getD i dummyDet).hazardId.isSome = true := by
              rw [hget, if_pos hcond]
              exact ⟨rfl, rfl⟩
            have hev := ((processClusters_spec rest st').1).getD i hlen
            exact ⟨hev.2.2.2.2.2.2.2.1 hproc.1, hev.2.2.2.2.2.2.2.2 hproc.2⟩
          · exact p1 ⟨c', hc', hidkeep ▸ hid⟩
        · intro hall
          have hcond : ¬ c.contains (st.detections.getD i dummyDet).id = true := by
            simpa using hall c (List.mem_cons_self _ _)
          have heq : st'.detections.getD i dummyDet = st.detections.getD i dummyDet := by
            rw [hget, if_neg hcond]
          rw [p2 (fun c' hc' => heq ▸ hall c' (List.mem_cons_of_mem _ hc')), heq]

/-- Every id a returned cluster carries is the id of one of the input
points. -/
theorem cluster_ids_sub (pts : List (ℝ × ℝ × ℤ)) (eps : ℝ) (m : ℕ) :
    ∀ c ∈ cluster_detections pts eps m, ∀ x ∈ c, x ∈ pts.map (·.2.2) := by
  intro c hc x hx
  rw [cluster_detections] at hc
  by_cases hlen : pts.length < m
  · rw [if_pos hlen] at hc
    exact absurd hc (List.not_mem_nil c)
  · rw [if_neg hlen] at hc
    rw [List.mem_map] at hc
    obtain ⟨cl, _hcl, rfl⟩ := hc
    rw [List.mem_map] at hx
    obtain ⟨i, _hi, rfl⟩ := hx
    exact List.mem_map.mpr ⟨pts.get i, List.get_mem _ _ _, rfl⟩

/-- Every id gathered into `detection_ids_in_clusters` lies in some cluster. -/
theorem processClusters_ids (clusters : List (List ℤ)) : ∀ (st : DBState) (x : ℤ),
    x ∈ (processClusters clusters st).2.1 → ∃ c ∈ clusters, x ∈ c := by
  induction clusters with
  | nil =>
      intro st x hx
      rw [processClusters_nil] at hx
      exact absurd hx (List.not_mem_nil x)
  | cons c rest ih =>
      intro st x hx
      rw [processClusters] at hx
      by_cases hm : (st.detections.filter (fun d => c.contains d.id)).isEmpty = true
      · rw [if_pos hm] at hx
        obtain ⟨c', hc', hx'⟩ := ih st x hx
        exact ⟨c', List.mem_cons_of_mem _ hc', hx'⟩
      · rw [if_neg hm] at hx
        rw [List.mem_append] at hx
        rcases hx with hx | hx
        · rw [List.mem_map] at hx
          obtain ⟨d, hd, rfl⟩ := hx
          rw [List.mem_filter] at hd
          exact ⟨c, List.mem_cons_self _ _, by simpa using hd.2⟩
        · obtain ⟨c', hc', hx'⟩ := ih _ x hx
          exact ⟨c', List.mem_cons_of_mem _ hc', hx'⟩

/-- The cluster loop only maps over the detection table. -/
theorem processClusters_map_form (clusters : List (List ℤ)) : ∀ (st : DBState),
    ∃ f : Det → Det, (processClusters clusters st).1.detections = st.detections.map f := by
  induction clusters with
  | nil =>
      intro st
      exact ⟨id, by rw [processClusters_nil, List.map_id]⟩
  | cons c rest ih =>
      intro st
      rw [processClusters]
      by_cases hm : (st.detections.filter (fun d => c.contains d.id)).isEmpty = true
      · rw [if_pos hm]
        exact ih st
      · rw [if_neg hm]
        obtain ⟨f, hf⟩ := ih
          { detections := linkCluster st.nextHazardId c st.detections,
            hazards := st.hazards ++ [mkHazard st.nextHazardId
              (st.detections.filter (fun d => c.contains d.id))],
            nextHazardId := st.nextHazardId + 1 }
        refine ⟨f ∘ (fun d => if c.contains d.id then
          { d with processed := true, hazardId := some st.nextHazardId } else d), ?_⟩
        rw [hf]
        show (linkCluster st.nextHazardId c st.detections).map f = _
        rw [linkCluster, List.map_map]

/-- A pass that fetches nothing is a no-op returning zero counters. -/
theorem process_detections_noop (cfg : PassCfg) (st : DBState)
    (h : st.detections.filter (fun d => !d.processed) = []) :
    process_detections cfg st = (st, ⟨0, 0, 0, 0, 0⟩) := by
  rw [process_detections, if_pos]
  rw [get_unprocessed_detections, h]
  rfl

theorem process_detections_evolves (cfg : PassCfg) (st : DBState) :
    StateEvolves st.detections (process_detections cfg st).1.detections := by
  rw [process_detections]
  by_cases he : (get_unprocessed_detections st.detections 10000).isEmpty = true
  · rw [if_pos he]
    exact StateEvolves_refl _
  · rw [if_neg he]
    exact StateEvolves_trans (processClusters_spec (passClusters cfg st) st).1
      (noiseMark_evolves _ _)

theorem process_detections_hazards (cfg : PassCfg) (st : DBState) :
    (∀ h ∈ st.hazards, h ∈ (process_detections cfg st).1.hazards) ∧
    (∀ h ∈ (process_detections cfg st).1.hazards, h ∈ st.hazards ∨ h.hazardType = "unknown") := by
  rw [process_detections]
  by_cases he : (get_unprocessed_detections st.detections 10000).isEmpty = true
  · rw [if_pos he]
    exact ⟨fun h hh => hh, fun h hh => Or.inl hh⟩
  · rw [if_neg he]
    obtain ⟨_, e2, e3, _⟩ := processClusters_spec (passClusters cfg st) st
    exact ⟨e2, e3⟩

theorem process_detections_cluster_stats (cfg : PassCfg) (st : DBState) :
    ∀ c ∈ passClusters cfg st, st.detections.filter (fun d => c.contains d.id) ≠ [] →
      ∃ h ∈ (process_detections cfg st).1.hazards,
        hazardStats h (st.detections.filter (fun d => c.contains d.id)) := by
  intro c hc hne
  rw [process_detections]
  by_cases he : (get_unprocessed_detections st.detections 10000).isEmpty = true
  · exfalso
    rw [passClusters] at hc
    rw [List.isEmpty_iff.mp he] at hc
    rw [cluster_detections] at hc
    by_cases hlen : (0:ℕ) < cfg.minSamples
    · rw [if_pos (by simpa using hlen)] at hc
      exact absurd hc (List.not_mem_nil c)
    · rw [if_neg (by simpa using hlen)] at hc
      simp [dbscanClusters] at hc
  · rw [if_neg he]
    exact (processClusters_spec (passClusters cfg st) st).2.2.2 c hc hne

theorem noiseMark_getD (ids : List ℤ) (l : List Det) (i : ℕ) (h : i < l.length) :
    (l.map (fun d => if ids.contains d.id then { d with processed := true } else d)).getD
        i dummyDet =
      (if ids.contains ((l.getD i dummyDet).id) then
        { l.getD i dummyDet with processed := true }
       else l.getD i dummyDet) := by
  rw [getD_map_lt _ _ i h]

theorem process_detections_marks (cfg : PassCfg) (st : DBState) :
    ∀ i, i < st.detections.length →
      (st.detections.getD i dummyDet).id ∈
        (get_unprocessed_detections st.detections 10000).map (·.2.2) →
      ((process_detections cfg st).1.detections.getD i dummyDet).processed = true := by
  intro i hi hmem
  rw [process_detections]
  by_cases he : (get_unprocessed_detections st.detections 10000).isEmpty = true
  · exfalso
    rw [List.isEmpty_iff.mp he] at hmem
    exact absurd hmem (List.not_mem_nil _)
  · rw [if_neg he]
    have hi1 : i < (processClusters (passClusters cfg st) st).1.detections.length := by
      rw [← (processClusters_spec (passClusters cfg st) st).1.length_eq]
      exact hi
    show ((((processClusters (passClusters cfg st) st).1.detections).map _).getD
      i dummyDet).processed = true
    rw [noiseMark_getD _ _ i hi1]
    by_cases hcl : ∃ c ∈ passClusters cfg st, (st.detections.getD i dummyDet).id ∈ c
    · have hp := ((processClusters_get (passClusters cfg st) st i hi).1 hcl).1
      by_cases hn : (((get_unprocessed_detections st.detections 10000).map (·.2.2)).filter
          (fun j => !(processClusters (passClusters cfg st) st).2.1.contains j)).contains
          ((processClusters (passClusters cfg st) st).1.detections.getD i dummyDet).id = true
      · rw [if_pos hn]
      · rw [if_neg hn]
        exact hp
    · have hunch := (processClusters_get (passClusters cfg st) st i hi).2
        (fun c hc hin => hcl ⟨c, hc, hin⟩)
      rw [hunch]
      have hnotin : ¬ (processClusters (passClusters cfg st) st).2.1.contains
          (st.detections.getD i dummyDet).id = true := by
        intro hcont
        rw [List.contains_iff_exists_mem_beq] at hcont
        obtain ⟨b, hb, hbeq⟩ := hcont
        have hbe : (st.detections.getD i dummyDet).id = b := by simpa using hbeq
        obtain ⟨c, hc, hx⟩ := processClusters_ids (passClusters cfg st) st b hb
        exact hcl ⟨c, hc, by rw [hbe]; exact hx⟩
      rw [if_pos (by
        rw [List.contains_iff_exists_mem_beq]
        refine ⟨(st.detections.getD i dummyDet).id, ?_, by simp⟩
        rw [List.mem_filter]
        exact ⟨hmem, by simpa using hnotin⟩)]

theorem process_detections_untouched (cfg : PassCfg) (st : DBState) :
    ∀ i, i < st.detections.length →
      (st.detections.getD i dummyDet).id ∉
        (get_unprocessed_detections st.detections 10000).map (·.2.2) →
      (process_detections cfg st).1.detections.getD i dummyDet =
        st.detections.getD i dummyDet := by
  intro i hi hmem
  rw [process_detections]
  by_cases he : (get_unprocessed_detections st.detections 10000).isEmpty = true
  · rw [if_pos he]
  · rw [if_neg he]
    have hi1 : i < (processClusters (passClusters cfg st) st).1.detections.length := by
      rw [← (processClusters_spec (passClusters cfg st) st).1.length_eq]
      exact hi
    have hnocl : ∀ c ∈ passClusters cfg st, (st.detections.getD i dummyDet).id ∉ c := by
      intro c hc hin
      apply hmem
      rw [passClusters] at hc
      exact cluster_ids_sub _ _ _ c hc _ hin
    have hunch := (processClusters_get (passClusters cfg st) st i hi).2 hnocl
    show (((processClusters (passClusters cfg st) st).1.detections).map _).getD
      i dummyDet = st.detections.getD i dummyDet
    rw [noiseMark_getD _ _ i hi1, hunch]
    rw [if_neg (by
      intro hcont
      apply hmem
      rw [List.contains_iff_exists_mem_beq] at hcont
      obtain ⟨j, hj, hbeq⟩ := hcont
      rw [List.mem_filter] at hj
      have hjeq : (st.detections.getD i dummyDet).id = j := by simpa using hbeq
      rw [hjeq]
      exact hj.1)]

/-- Every detection whose id lies in a cluster of the pass ends the pass
processed and linked to a hazard. -/
theorem process_detections_links (cfg : PassCfg) (st : DBState) :
    ∀ c ∈ passClusters cfg st, ∀ d ∈ st.detections, d.id ∈ c →
      ∃ d' ∈ (process_detections cfg st).1.detections,
        d'.id = d.id ∧ d'.processed = true ∧ d'.hazardId.isSome = true := by
  intro c hc d hd hin
  obtain ⟨i, hget⟩ := List.mem_iff_get.mp hd
  have hgetD : st.detections.getD i.1 dummyDet = d := by
    rw [List.getD_eq_get st.detections dummyDet i.2]
    exact hget
  have hlen : (process_detections cfg st).1.detections.length = st.detections.length :=
    (process_detections_evolves cfg st).length_eq.symm
  have hi' : i.1 < (process_detections cfg st).1.detections.length := by
    rw [hlen]; exact i.2
  refine ⟨(process_detections cfg st).1.detections.getD i.1 dummyDet,
    getD_mem i.1 hi', ?_, ?_, ?_⟩
  · have := (process_detections_evolves cfg st).getD i.1 i.2
    rw [hgetD] at this
    exact this.1
  · rw [process_detections]
    by_cases he : (get_unprocessed_detections st.detections 10000).isEmpty = true
    · exfalso
      rw [passClusters] at hc
      rw [List.isEmpty_iff.mp he] at hc
      rw [cluster_detections] at hc
      by_cases hlen0 : (0:ℕ) < cfg.minSamples
      · rw [if_pos (by simpa using hlen0)] at hc
        exact absurd hc (List.not_mem_nil c)
      · rw [if_neg (by simpa using hlen0)] at hc
        simp [dbscanClusters] at hc
    · rw [if_neg he]
      have hi1 : i.1 < (processClusters (passClusters cfg st) st).1.detections.length := by
        rw [← (processClusters_spec (passClusters cfg st) st).1.length_eq]
        exact i.2
      show ((((processClusters (passClusters cfg st) st).1.detections).map _).getD
        i.1 dummyDet).processed = true
      rw [noiseMark_getD _ _ i.1 hi1]
      have hp := ((processClusters_get (passClusters cfg st) st i.1 i.2).1
        ⟨c, hc, by rw [hgetD]; exact hin⟩).1
      by_cases hn : (((get_unprocessed_detections st.detections 10000).map (·.2.2)).filter
          (fun j => !(processClusters (passClusters cfg st) st).2.1.contains j)).contains
          ((processClusters (passClusters cfg st) st).1.detections.getD i.1 dummyDet).id = true
      · rw [if_pos hn]
      · rw [if_neg hn]
        exact hp
  · rw [process_detections]
    by_cases he : (get_unprocessed_detections st.detections 10000).isEmpty = true
    · exfalso
      rw [passClusters] at hc
      rw [List.isEmpty_iff.mp he] at hc
      rw [cluster_detections] at hc
      by_cases hlen0 : (0:ℕ) < cfg.minSamples
      · rw [if_pos (by simpa using hlen0)] at hc
        exact absurd hc (List.not_mem_nil c)
      · rw [if_neg (by simpa using hlen0)] at hc
        simp [dbscanClusters] at hc
    · rw [if_neg he]
      have hi1 : i.1 < (processClusters (passClusters cfg st) st).1.detections.length := by
        rw [← (processClusters_spec (passClusters cfg st) st).1.length_eq]
        exact i.2
      show ((((processClusters (passClusters cfg st) st).1.detections).map _).getD
        i.1 dummyDet).hazardId.isSome = true
      rw [noiseMark_getD _ _ i.1 hi1]
      have hp := ((processClusters_get (passClusters cfg st) st i.1 i.2).1
        ⟨c, hc, by rw [hgetD]; exact hin⟩).2
      by_cases hn : (((get_unprocessed_detections st.detections 10000).map (·.2.2)).filter
          (fun j => !(processClusters (passClusters cfg st) st).2.1.contains j)).contains
          ((processClusters (passClusters cfg st) st).1.detections.getD i.1 dummyDet).id = true
      · rw [if_pos hn]
        exact hp
      · rw [if_neg hn]
        exact hp

theorem getD_map_of_lt {α β : Type} (f : α → β) (l : List α) (i : ℕ) (h : i < l.length)
    (d : α) (d' : β) : (l.map f).getD i d' = f (l.getD i d) := by
  rw [List.getD_eq_getElem _ _ (by simpa using h), List.getD_eq_getElem _ _ h]
  simp

theorem process_detections_map_form (cfg : PassCfg) (st : DBState) :
    ∃ f : Det → Det, (process_detections cfg st).1.detections = st.detections.map f := by
  rw [process_detections]
  by_cases he : (get_unprocessed_detections st.detections 10000).isEmpty = true
  · rw [if_pos he]
    exact ⟨id, (List.map_id _).symm⟩
  · rw [if_neg he]
    obtain ⟨g, hg⟩ := processClusters_map_form (passClusters cfg st) st
    refine ⟨(fun d =>
      if (((get_unprocessed_detections st.detections 10000).map (·.2.2)).filter
          (fun j => !(processClusters (passClusters cfg st) st).2.1.contains j)).contains d.id
      then { d with processed := true } else d) ∘ g, ?_⟩
    show (processClusters (passClusters cfg st) st).1.detections.map _ = _
    rw [hg, List.map_map]

/-- When the batch limit does not truncate the fetch, the pass leaves every
detection processed. -/
theorem process_detections_all_processed (cfg : PassCfg) (st : DBState)
    (hle : (st.detections.filter (fun d => !d.processed)).length ≤ 10000) :
    ∀ d' ∈ (process_detections cfg st).1.detections, d'.processed = true := by
  intro d' hd'
  obtain ⟨i, hget⟩ := List.mem_iff_get.mp hd'
  have hlen : (process_detections cfg st).1.detections.length = st.detections.length :=
    (process_detections_evolves cfg st).length_eq.symm
  have hi : i.1 < st.detections.length := by rw [← hlen]; exact i.2
  have hgetD : (process_detections cfg st).1.detections.getD i.1 dummyDet = d' := by
    rw [List.getD_eq_get _ dummyDet i.2]
    exact hget
  by_cases hp : (st.detections.getD i.1 dummyDet).processed = true
  · rw [← hgetD]
    exact ((process_detections_evolves cfg st).getD i.1 hi).2.2.2.2.2.2.2.1 hp
  · rw [← hgetD]
    apply process_detections_marks cfg st i.1 hi
    rw [get_unprocessed_detections,
      List.take_of_length_le hle, List.map_map]
    refine List.mem_map.mpr ⟨st.detections.getD i.1 dummyDet, ?_, rfl⟩
    rw [List.mem_filter]
    exact ⟨getD_mem i.1 hi, by simpa using hp⟩

/-- Running the pass again directly after a non-truncated pass is a no-op
with all-zero counters. -/
theorem process_detections_idem (cfg : PassCfg) (st : DBState)
    (hle : (st.detections.filter (fun d => !d.processed)).length ≤ 10000) :
    process_detections cfg (process_detections cfg st).1 =
      ((process_detections cfg st).1, ⟨0, 0, 0, 0, 0⟩) := by
  apply process_detections_noop
  refine List.filter_eq_nil_iff.mpr ?_
  intro d' hd'
  rw [process_detections_all_processed cfg st hle d' hd']
  simp

/-- Pipeline configuration with the source defaults:
`SPATIAL_CLUSTER_RADIUS_METERS = 15`, `MIN_DETECTIONS_FOR_HAZARD = 3`. -/
noncomputable def cfg1 : PassCfg := ⟨15, 3⟩

/-- C1/C3 scenario: three co-located unprocessed detections; the first has
GPS accuracy 100 m (far above the 10 m gate), all have magnitude 2. -/
noncomputable def exDet1 : Det := ⟨1, 1, 0, 0, 100, 2, 0, false, none⟩

noncomputable def exDet2 : Det := ⟨2, 1, 0, 0, 5, 2, 0, false, none⟩

noncomputable def exDet3 : Det := ⟨3, 2, 0, 0, 5, 2, 0, false, none⟩

noncomputable def exState : DBState := ⟨[exDet1, exDet2, exDet3], [], 1⟩

theorem ex_fetch : get_unprocessed_detections exState.detections 10000
    = [(0, 0, 1), (0, 0, 2), (0, 0, 3)] := rfl

theorem ex_clusters : passClusters cfg1 exState = [[1, 2, 3]] := by
  rw [passClusters, ex_fetch]
  exact cluster_detections_three_same 0 0 1 2 3 15 (by norm_num)

theorem ex_members : exState.detections.filter (fun d => [(1:ℤ), 2, 3].contains d.id)
    = [exDet1, exDet2, exDet3] := rfl

theorem ex_outlier : is_outlier 10 2 100 [2, 2, 2] = true := by
  rw [is_outlier, if_pos (by norm_num : (10:ℝ) < 100)]

theorem ex_mean : listMean [2, 2, 2] = 2 := by
  rw [listMean]
  norm_num

theorem ex_max : listMax [2, 2, 2] = 2 := by
  rw [listMax]
  norm_num

theorem ex_std : listStd [2, 2, 2] = 0 := by
  rw [listStd, ex_mean]
  norm_num [listMean, Real.sqrt_zero]

theorem ex_classify : classify_hazard_type [2, 2, 2] = "rough_road" := by
  rw [classify_hazard_type, if_neg (by simp)]
  rw [if_neg (by
    rintro ⟨h1, _⟩
    rw [ex_mean] at h1
    norm_num at h1)]
  rw [if_neg (by
    intro h1
    rw [ex_max] at h1
    norm_num at h1)]
  rw [if_pos ⟨by rw [ex_mean]; norm_num, by rw [ex_std]; norm_num⟩]

/-- C5 scenario: 10003 unprocessed detections — three more than the fetch
limit — all co-located, with distinct ids `0..10002`. -/
noncomputable def bigDet (n : ℕ) : Det := ⟨(n : ℤ), (n : ℤ), 0, 0, 5, 2, 0, false, none⟩

noncomputable def bigA : List Det := (List.range 10000).map bigDet

noncomputable def bigB : List Det := [bigDet 10000, bigDet 10001, bigDet 10002]

noncomputable def bigState : DBState := ⟨bigA ++ bigB, [], 1⟩

theorem bigA_length : bigA.length = 10000 := by simp [bigA]

theorem big_length : bigState.detections.length = 10003 := by
  show (bigA ++ bigB).length = 10003
  rw [List.length_append, bigA_length]
  rfl

theorem big_unprocessed : ∀ d ∈ bigState.detections, d.processed = false := by
  intro d hd
  rcases List.mem_append.mp hd with hd | hd
  · rw [bigA, List.mem_map] at hd
    obtain ⟨n, _, rfl⟩ := hd
    rfl
  · rw [bigB] at hd
    rcases List.mem_cons.mp hd with rfl | hd
    · rfl
    rcases List.mem_cons.mp hd with rfl | hd
    · rfl
    rcases List.mem_cons.mp hd with rfl | hd
    · rfl
    · exact absurd hd (List.not_mem_nil d)

theorem big_filter : bigState.detections.filter (fun d => !d.processed) = bigA ++ bigB := by
  refine List.filter_eq_self.mpr ?_
  intro d hd
  rw [big_unprocessed d hd]
  rfl

theorem big_fetch : get_unprocessed_detections bigState.detections 10000
    = bigA.map (fun d => (d.latitude, d.longitude, d.id)) := by
  rw [get_unprocessed_detections]
  rw [show bigState.detections.filter (fun d => !d.processed) = bigA ++ bigB from big_filter]
  rw [← bigA_length, List.take_left]

theorem big_mem_ids (n : ℕ) (h : n < 10000) :
    ((n : ℤ)) ∈ (get_unprocessed_detections bigState.detections 10000).map (·.2.2) := by
  rw [big_fetch, List.map_map]
  refine List.mem_map.mpr ⟨bigDet n, ?_, rfl⟩
  rw [bigA]
  exact List.mem_map.mpr ⟨n, List.mem_range.mpr h, rfl⟩

theorem big_not_mem_ids (n : ℕ) (h : 10000 ≤ n) :
    ((n : ℤ)) ∉ (get_unprocessed_detections bigState.detections 10000).map (·.2.2) := by
  rw [big_fetch, List.map_map]
  intro hmem
  obtain ⟨d, hd, hdid⟩ := List.mem_map.mp hmem
  rw [bigA, List.mem_map] at hd
  obtain ⟨m, hm, rfl⟩ := hd
  rw [List.mem_range] at hm
  have hcast : (m : ℤ) = (n : ℤ) := hdid
  have hmn : m = n := by exact_mod_cast hcast
  omega

theorem range_getD (m n : ℕ) (h : n < m) : (List.range m).getD n 0 = n := by
  rw [List.getD_eq_getElem _ _ (by simpa using h)]
  simp

theorem big_getD_lo (n : ℕ) (h : n < 10000) :
    bigState.detections.getD n dummyDet = bigDet n := by
  show (bigA ++ bigB).getD n dummyDet = bigDet n
  rw [List.getD_append _ _ _ _ (by rw [bigA_length]; exact h)]
  rw [bigA, getD_map_of_lt bigDet _ n (by simpa using h) 0 dummyDet, range_getD _ _ h]

theorem big_getD_hi (k : ℕ) (hk : k < 3) :
    bigState.detections.getD (10000 + k) dummyDet = bigDet (10000 + k) := by
  show (bigA ++ bigB).getD (10000 + k) dummyDet = _
  rw [List.getD_append_right _ _ _ _ (by rw [bigA_length]; omega)]
  rw [bigA_length]
  rw [show 10000 + k - 10000 = k from by omega]
  interval_cases k <;> rfl

/-- The state after the first pass over the C5 scenario. -/
noncomputable def bigSt1 : DBState := (process_detections cfg1 bigState).1

theorem bigSt1_len : bigSt1.detections.length = 10003 := by
  rw [bigSt1, ← (process_detections_evolves cfg1 bigState).length_eq, big_length]

theorem bigSt1_hi (k : ℕ) (hk : k < 3) :
    bigSt1.detections.getD (10000 + k) dummyDet = bigDet (10000 + k) := by
  have h1 := big_getD_hi k hk
  have hn : (bigState.detections.getD (10000 + k) dummyDet).id ∉
      (get_unprocessed_detections bigState.detections 10000).map (·.2.2) := by
    rw [h1]
    exact big_not_mem_ids (10000 + k) (by omega)
  rw [bigSt1, process_detections_untouched cfg1 bigState (10000 + k)
    (by rw [big_length]; omega) hn, h1]

theorem bigSt1_lo_processed (n : ℕ) (h : n < 10000) :
    (bigSt1.detections.getD n dummyDet).processed = true := by
  rw [bigSt1]
  apply process_detections_marks cfg1 bigState n (by rw [big_length]; omega)
  rw [big_getD_lo n h]
  exact big_mem_ids n h

theorem bigSt1_getD_lo (n : ℕ) (h : n < 10000) (f : Det → Det)
    (hsplit : bigSt1.detections = bigA.map f ++ bigB) :
    bigSt1.detections.getD n dummyDet = f (bigDet n) := by
  rw [hsplit]
  rw [List.getD_append _ _ _ _ (by rw [List.length_map, bigA_length]; exact h)]
  rw [bigA, List.map_map, getD_map_of_lt (f ∘ bigDet) _ n (by simpa using h) 0 dummyDet,
    range_getD _ _ h]
  rfl

theorem bigSt1_split : ∃ f : Det → Det, bigSt1.detections = bigA.map f ++ bigB := by
  obtain ⟨f, hf⟩ := process_detections_map_form cfg1 bigState
  have hsplit0 : bigSt1.detections = bigA.map f ++ bigB.map f := by
    rw [bigSt1, hf]
    show (bigA ++ bigB).map f = _
    rw [List.map_append]
  have h3 : ∀ k, k < 3 → f (bigDet (10000 + k)) = bigDet (10000 + k) := by
    intro k hk
    have h1 : bigSt1.detections.getD (10000 + k) dummyDet = f (bigDet (10000 + k)) := by
      rw [hsplit0]
      rw [List.getD_append_right _ _ _ _
        (by rw [List.length_map, bigA_length]; omega)]
      rw [List.length_map, bigA_length, show 10000 + k - 10000 = k from by omega]
      rw [show (bigB.map f) = [f (bigDet 10000), f (bigDet 10001), f (bigDet 10002)] from rfl]
      interval_cases k <;> rfl
    rw [← h1, bigSt1_hi k hk]
  have e0 := h3 0 (by norm_num)
  have e1 := h3 1 (by norm_num)
  have e2 := h3 2 (by norm_num)
  norm_num at e0 e1 e2
  have hB : bigB.map f = bigB := by
    show [f (bigDet 10000), f (bigDet 10001), f (bigDet 10002)] = bigB
    rw [e0, e1, e2]
    rfl
  refine ⟨f, ?_⟩
  rw [hsplit0, hB]

theorem bigSt1_filter : bigSt1.detections.filter (fun d => !d.processed) = bigB := by
  obtain ⟨f, hsplit⟩ := bigSt1_split
  rw [hsplit, List.filter_append]
  have hA : (bigA.map f).filter (fun d => !d.processed) = [] := by
    refine List.filter_eq_nil_iff.mpr ?_
    intro x hx
    rw [bigA, List.map_map, List.mem_map] at hx
    obtain ⟨n, hn, rfl⟩ := hx
    rw [List.mem_range] at hn
    have h1 : bigSt1.detections.getD n dummyDet = f (bigDet n) :=
      bigSt1_getD_lo n hn f hsplit
    have h2 := bigSt1_lo_processed n hn
    rw [h1] at h2
    show ¬ (!(f (bigDet n)).processed) = true
    rw [h2]
    simp
  have hB : bigB.filter (fun d => !d.processed) = bigB := rfl
  rw [hA, hB, List.nil_append]

theorem big_fetch2 : get_unprocessed_detections bigSt1.detections 10000
    = [(0, 0, 10000), (0, 0, 10001), (0, 0, 10002)] := by
  rw [get_unprocessed_detections, bigSt1_filter]
  rfl

theorem big_clusters2 : passClusters cfg1 bigSt1 = [[10000, 10001, 10002]] := by
  rw [passClusters, big_fetch2]
  exact cluster_detections_three_same 0 0 10000 10001 10002 15 (by norm_num)

theorem big_members2 :
    bigSt1.detections.filter (fun d => [(10000:ℤ), 10001, 10002].contains d.id) = bigB := by
  obtain ⟨f, hsplit⟩ := bigSt1_split
  rw [hsplit, List.filter_append]
  have hA : (bigA.map f).filter (fun d => [(10000:ℤ), 10001, 10002].contains d.id) = [] := by
    refine List.filter_eq_nil_iff.mpr ?_
    intro x hx
    rw [bigA, List.map_map, List.mem_map] at hx
    obtain ⟨n, hn, rfl⟩ := hx
    rw [List.mem_range] at hn
    have h1 : bigSt1.detections.getD n dummyDet = f (bigDet n) :=
      bigSt1_getD_lo n hn f hsplit
    have hid : (f (bigDet n)).id = (n : ℤ) := by
      rw [← h1]
      have hev := (process_detections_evolves cfg1 bigState).getD n (by rw [big_length]; omega)
      have := hev.1
      rw [big_getD_lo n hn] at this
      rw [bigSt1]
      exact this
    intro hcont
    rw [List.contains_iff_exists_mem_beq] at hcont
    obtain ⟨b, hb, hbeq⟩ := hcont
    have hbe : (f (bigDet n)).id = b := by simpa using hbeq
    rw [hid] at hbe
    have hge : (10000 : ℤ) ≤ (n : ℤ) := by
      rcases List.mem_cons.mp hb with rfl | hb
      · rw [hbe]
      rcases List.mem_cons.mp hb with rfl | hb
      · rw [hbe]; norm_num
      rcases List.mem_cons.mp hb with rfl | hb
      · rw [hbe]; norm_num
      · exact absurd hb (List.not_mem_nil b)
    have : (n : ℤ) < 10000 := by exact_mod_cast hn
    omega
  have hB : bigB.filter (fun d => [(10000:ℤ), 10001, 10002].contains d.id) = bigB := rfl
  rw [hA, hB, List.nil_append]

theorem process_detections_counters (cfg : PassCfg) (st : DBState)
    (hne : ¬ (get_unprocessed_detections st.detections 10000).isEmpty = true) :
    (process_detections cfg st).2.hazardsCreated =
      (processClusters (passClusters cfg st) st).2.2.2 ∧
    (process_detections cfg st).2.detectionsProcessed =
      (processClusters (passClusters cfg st) st).2.2.1 := by
  rw [process_detections, if_neg hne]
  exact ⟨rfl, rfl⟩

theorem processClusters_single (c : List ℤ) (st : DBState)
    (hne : ¬ (st.detections.filter (fun d => c.contains d.id)).isEmpty = true) :
    (processClusters [c] st).2.2.2 = 1 ∧
    (processClusters [c] st).2.2.1 =
      (st.detections.filter (fun d => c.contains d.id)).length := by
  rw [processClusters_cons, if_neg hne]
  exact ⟨rfl, rfl⟩

/-- Second-run counters over the C5 scenario: one hazard created and three
detections processed, although no detection was added between the runs. -/
theorem big_run2 :
    (process_detections cfg1 bigSt1).2.hazardsCreated = 1 ∧
    (process_detections cfg1 bigSt1).2.detectionsProcessed = 3 := by
  have hne : ¬ (get_unprocessed_detections bigSt1.detections 10000).isEmpty = true := by
    rw [big_fetch2]
    simp
  obtain ⟨h1, h2⟩ := process_detections_counters cfg1 bigSt1 hne
  rw [big_clusters2] at h1 h2
  have hmne : ¬ (bigSt1.detections.filter
      (fun d => [(10000:ℤ), 10001, 10002].contains d.id)).isEmpty = true := by
    rw [big_members2, bigB]
    simp
  obtain ⟨g1, g2⟩ := processClusters_single [(10000:ℤ), 10001, 10002] bigSt1 hmne
  constructor
  · rw [h1, g1]
  · rw [h2, g2, big_members2, bigB]
    rfl

/-! ## `api/hazards.py` — `verify_hazard`

The endpoint is a transactional operation over the hazard and verification
tables; an `HTTPException` aborts the request before any mutation, so the
error outcomes produce no successor state. -/

/-- One row of the `hazard_verifications` table. -/
structure VerificationRow where
  hazardId : ℕ
  userId : ℤ
  isValid : Bool
  comment : Option String

/-- The store `verify_hazard` reads and writes. -/
structure VerifyState where
  hazards : List HazardRec
  verifications : List VerificationRow

/-- The two rejection outcomes: 404 hazard-not-found and 400
already-verified. -/
inductive VerifyError
  | notFound
  | conflict
deriving DecidableEq

/-- `verify_hazard` (`POST /hazards/:id/verify`): look the hazard up, reject
a duplicate `(hazard, user)` verification, otherwise insert one verification
row, bump the hazard's `verification_count` and, when the judgment is
positive, its `positive_verifications`. -/
def verify_hazard (hazard_id : ℕ) (user_id : ℤ) (is_valid : Bool)
    (comment : Option String) (st : VerifyState) : Except VerifyError VerifyState :=
  match st.hazards.find? (fun h => h.id == hazard_id) with
  | none => .error .notFound
  | some _ =>
    if st.verifications.any (fun v => v.hazardId == hazard_id && v.userId == user_id) then
      .error .conflict
    else
      .ok { hazards := st.hazards.map (fun h =>
              if h.id == hazard_id then
                { h with verificationCount := h.verificationCount + 1,
                         positiveVerifications := h.positiveVerifications +
                           (if is_valid then 1 else 0) }
              else h),
            verifications := st.verifications ++ [⟨hazard_id, user_id, is_valid, comment⟩] }

/-! ## Claims -/

instance : IsTotal HazardAlertRow (fun a b => a.distance ≤ b.distance) :=
  ⟨fun a b => le_total a.distance b.distance⟩

instance : IsTrans HazardAlertRow (fun a b => a.distance ≤ b.distance) :=
  ⟨fun _ _ _ h1 h2 => le_trans h1 h2⟩

/-- C1 (counterexample): in a concrete pass, detection 1 has GPS accuracy
100 m, so `is_outlier` returns true for it against its cluster's magnitudes;
yet the pass links it to the created hazard and counts it in the hazard's
`detection_count`, because `process_detections` never invokes the outlier
filter — refuting the claim that such a detection is excluded from the
scoring statistics and never linked. -/
theorem C1_counterexample :
    is_outlier 10 exDet1.magnitude exDet1.accuracy
      ((exState.detections.filter (fun d => [(1:ℤ), 2, 3].contains d.id)).map (·.magnitude))
      = true ∧
    [(1:ℤ), 2, 3] ∈ passClusters cfg1 exState ∧
    (∃ d' ∈ (process_detections cfg1 exState).1.detections,
      d'.id = exDet1.id ∧ d'.processed = true ∧ d'.hazardId.isSome = true) ∧
    ∃ h ∈ (process_detections cfg1 exState).1.hazards, h.detectionCount = 3 := by
  have hc : [(1:ℤ), 2, 3] ∈ passClusters cfg1 exState := by
    rw [ex_clusters]
    exact List.mem_singleton_self _
  refine ⟨?_, hc, ?_, ?_⟩
  · show is_outlier 10 2 100 [2, 2, 2] = true
    exact ex_outlier
  · exact process_detections_links cfg1 exState [1, 2, 3] hc exDet1
      (List.mem_cons_self _ _) (by show (1:ℤ) ∈ [(1:ℤ), 2, 3]; simp)
  · obtain ⟨h, hm, hstats⟩ := process_detections_cluster_stats cfg1 exState [1, 2, 3] hc
      (by rw [ex_members]; simp)
    refine ⟨h, hm, ?_⟩
    rw [hstats.2.1, ex_members]
    rfl

/-- C1 (amended): the aggregation pass performs no outlier filtering.  Every
detection whose id lies in a cluster of the pass — even one the outlier test
flags — is linked to a hazard, is marked processed, and its magnitude enters
the created hazard's scoring statistics (severity, confidence, detection
count, unique users, timestamps), which are computed from the full member
list. -/
theorem C1_no_outlier_filtering (cfg : PassCfg) (st : DBState) (maxAcc : ℝ)
    (c : List ℤ) (d : Det)
    (hc : c ∈ passClusters cfg st) (hd : d ∈ st.detections) (hid : d.id ∈ c)
    (_hout : is_outlier maxAcc d.magnitude d.accuracy
      ((st.detections.filter (fun x => c.contains x.id)).map (·.magnitude)) = true) :
    (∃ d' ∈ (process_detections cfg st).1.detections,
       d'.id = d.id ∧ d'.processed = true ∧ d'.hazardId.isSome = true) ∧
    d.magnitude ∈ (st.detections.filter (fun x => c.contains x.id)).map (·.magnitude) ∧
    ∃ h ∈ (process_detections cfg st).1.hazards,
      hazardStats h (st.detections.filter (fun x => c.contains x.id)) := by
  have hdf : d ∈ st.detections.filter (fun x => c.contains x.id) := by
    rw [List.mem_filter]
    exact ⟨hd, by simpa using hid⟩
  refine ⟨process_detections_links cfg st c hc d hd hid, ?_, ?_⟩
  · exact List.mem_map.mpr ⟨d, hdf, rfl⟩
  · exact process_detections_cluster_stats cfg st c hc
      (fun h0 => by rw [h0] at hdf; exact absurd hdf (List.not_mem_nil d))

/-- C1 witness: the amended theorem applied to the concrete scenario. -/
theorem C1_witness :
    (is_outlier 10 exDet1.magnitude exDet1.accuracy
      ((exState.detections.filter (fun x => [(1:ℤ), 2, 3].contains x.id)).map (·.magnitude))
      = true) ∧
    ((∃ d' ∈ (process_detections cfg1 exState).1.detections,
       d'.id = exDet1.id ∧ d'.processed = true ∧ d'.hazardId.isSome = true) ∧
    exDet1.magnitude ∈
      (exState.detections.filter (fun x => [(1:ℤ), 2, 3].contains x.id)).map (·.magnitude) ∧
    ∃ h ∈ (process_detections cfg1 exState).1.hazards,
      hazardStats h (exState.detections.filter (fun x => [(1:ℤ), 2, 3].contains x.id))) := by
  have hout : is_outlier 10 exDet1.magnitude exDet1.accuracy
      ((exState.detections.filter (fun x => [(1:ℤ), 2, 3].contains x.id)).map (·.magnitude))
      = true := by
    show is_outlier 10 2 100 [2, 2, 2] = true
    exact ex_outlier
  refine ⟨hout, ?_⟩
  exact C1_no_outlier_filtering cfg1 exState 10 [1, 2, 3] exDet1
    (by rw [ex_clusters]; exact List.mem_singleton_self _)
    (List.mem_cons_self _ _)
    (by show (1:ℤ) ∈ [(1:ℤ), 2, 3]; simp)
    hout

/-- C2: unit mismatch in the clustering radius.  `cluster_detections` hands
the library an `eps` of `eps_meters / 111000` *degrees* while the haversine
metric measures radians, making the effective radius about 57.4 times the
configured meters.  At `eps = 50` m and `min_points = 2`, the two scenario
points are put into one cluster although their great-circle distance
`6371000·π/18000 ≈ 1112` m exceeds 50 m, and no chain with steps of at most
50 m connects them — refuting the claimed reachability relation. -/
theorem C2_eps_unit_mismatch :
    2 ≤ pairPoints.length ∧
    cluster_detections pairPoints 50 2 = [[0, 1]] ∧
    50 < haversine_distance 0 0 0 (1 / 100) ∧
    ¬ specChainReachable pairPoints 50 ⟨0, by simp [pairPoints]⟩ ⟨1, by simp [pairPoints]⟩ :=
  ⟨by simp [pairPoints], cluster_detections_pair, pair_distance_gt,
   pair_not_specChainReachable⟩

/-- C3 (counterexample): over a concrete pass whose cluster magnitudes are
`[2, 2, 2]`, the classification heuristic yields `"rough_road"`, yet every
hazard the pass creates carries type `"unknown"` — the endpoint hardcodes
`hazard_type="unknown"` and never calls `classify_hazard_type`. -/
theorem C3_counterexample :
    classify_hazard_type
      ((exState.detections.filter (fun d => [(1:ℤ), 2, 3].contains d.id)).map (·.magnitude))
      = "rough_road" ∧
    (∃ h ∈ (process_detections cfg1 exState).1.hazards,
      hazardStats h (exState.detections.filter (fun d => [(1:ℤ), 2, 3].contains d.id))) ∧
    ∀ h ∈ (process_detections cfg1 exState).1.hazards, h.hazardType = "unknown" := by
  refine ⟨?_, ?_, ?_⟩
  · show classify_hazard_type [2, 2, 2] = "rough_road"
    exact ex_classify
  · exact process_detections_cluster_stats cfg1 exState [1, 2, 3]
      (by rw [ex_clusters]; exact List.mem_singleton_self _) (by rw [ex_members]; simp)
  · intro h hh
    rcases (process_detections_hazards cfg1 exState).2 h hh with hh' | hh'
    · exact absurd hh' (List.not_mem_nil h)
    · exact hh'

/-- C3 (amended): every hazard the aggregation pass creates has hazard type
`"unknown"`; `classify_hazard_type` does implement the claimed heuristic in
the claimed order (speed_bump, then pothole, then rough_road, then unknown),
but the pass never invokes it. -/
theorem C3_type_always_unknown (cfg : PassCfg) (st : DBState) :
    (∀ h ∈ (process_detections cfg st).1.hazards,
      h ∈ st.hazards ∨ h.hazardType = "unknown") ∧
    (∀ mags : List ℝ, mags ≠ [] →
      classify_hazard_type mags =
        (if 2.5 < listMean mags ∧ listStd mags < 0.5 then "speed_bump"
         else if 3.5 < listMax mags then "pothole"
         else if 1.5 < listMean mags ∧ listStd mags < 1.0 then "rough_road"
         else "unknown")) := by
  refine ⟨(process_detections_hazards cfg st).2, ?_⟩
  intro mags hne
  rw [classify_hazard_type, if_neg (by simpa using hne)]

/-- C3 witness: the amended theorem applied to the concrete scenario. -/
theorem C3_witness :
    (∀ h ∈ (process_detections cfg1 exState).1.hazards,
      h ∈ exState.hazards ∨ h.hazardType = "unknown") ∧
    (([(2:ℝ), 2, 2] ≠ []) ∧
      classify_hazard_type [(2:ℝ), 2, 2] =
        (if 2.5 < listMean [(2:ℝ), 2, 2] ∧ listStd [(2:ℝ), 2, 2] < 0.5 then "speed_bump"
         else if 3.5 < listMax [(2:ℝ), 2, 2] then "pothole"
         else if 1.5 < listMean [(2:ℝ), 2, 2] ∧ listStd [(2:ℝ), 2, 2] < 1.0 then "rough_road"
         else "unknown")) := by
  refine ⟨(C3_type_always_unknown cfg1 exState).1, by simp, ?_⟩
  exact (C3_type_always_unknown cfg1 exState).2 [(2:ℝ), 2, 2] (by simp)

/-- C4 (counterexample): with the suppression radius configured to exactly
the great-circle distance between two accepted alerts, both alerts survive
suppression (the code only rejects at strictly smaller distance), yet their
pairwise distance does not *exceed* the radius — refuting the strict
inequality in the claim. -/
theorem C4_counterexample :
    c4AlertA ∈ get_alerts_for_route c4Cfg [c4RowA, c4RowB] 20 5 ∧
    c4AlertB ∈ get_alerts_for_route c4Cfg [c4RowA, c4RowB] 20 5 ∧
    c4AlertA ≠ c4AlertB ∧
    ¬ (c4Cfg.suppressionRadius <
        haversine_distance c4AlertA.latitude c4AlertA.longitude
          c4AlertB.latitude c4AlertB.longitude) := by
  refine ⟨by rw [c4_run]; simp, by rw [c4_run]; simp, ?_, ?_⟩
  · intro h
    have := congrArg AlertItem.hazard_id h
    rw [show c4AlertA.hazard_id = 1 from rfl, show c4AlertB.hazard_id = 2 from rfl] at this
    exact absurd this (by norm_num)
  · show ¬ (c4Radius < haversine_distance 0 0 0 1)
    rw [c4Radius]
    exact lt_irrefl _

/-- C4 (amended): any two alerts in a ranked result are at least (not
strictly more than) the suppression radius apart, and suppression is greedy
in descending priority order: an alert dropped by `_apply_suppression` is
always within the radius of some kept alert of at least its priority. -/
theorem C4_suppression (cfg : AlertCfg) (table : List HazardAlertRow) (speed : ℝ)
    (k : ℕ) (alerts : List AlertItem) :
    (get_alerts_for_route cfg table speed k).Pairwise (farApart cfg.suppressionRadius) ∧
    (∀ a ∈ alerts, a ∉ apply_suppression cfg alerts →
      ∃ b ∈ apply_suppression cfg alerts,
        alertDist a b < cfg.suppressionRadius ∧ a.priority ≤ b.priority) :=
  ⟨get_alerts_pairwise cfg table speed k, apply_suppression_greedy cfg alerts⟩

theorem cfgStd_suppress_pair : apply_suppression cfgStd [mkC10Alert 1, mkC10Alert 2]
    = [mkC10Alert 1] := by
  rw [apply_suppression]
  rw [List.Sorted.insertionSort_eq (by
    simp only [List.sorted_cons, List.forall_mem_cons, List.not_mem_nil, List.sorted_nil]
    norm_num [mkC10Alert])]
  rw [suppressLoop, if_neg (by simp)]
  rw [suppressLoop, if_pos (by
    simp only [List.nil_append, List.any_cons, List.any_nil, Bool.or_false]
    rw [show (mkC10Alert 2).latitude = 0 from rfl, show (mkC10Alert 2).longitude = 0 from rfl,
      show (mkC10Alert 1).latitude = 0 from rfl, show (mkC10Alert 1).longitude = 0 from rfl,
      haversine_distance_self]
    rw [decide_eq_true_iff]
    show (0:ℝ) < cfgStd.suppressionRadius
    rw [show cfgStd.suppressionRadius = 500 from rfl]
    norm_num)]
  rw [suppressLoop, List.nil_append]

/-- C4 witness: the amended theorem applied to concrete inputs, including a
concretely dropped alert. -/
theorem C4_witness :
    (get_alerts_for_route c4Cfg [c4RowA, c4RowB] 20 5).Pairwise
      (farApart c4Cfg.suppressionRadius) ∧
    mkC10Alert 2 ∈ [mkC10Alert 1, mkC10Alert 2] ∧
    mkC10Alert 2 ∉ apply_suppression cfgStd [mkC10Alert 1, mkC10Alert 2] ∧
    ∃ b ∈ apply_suppression cfgStd [mkC10Alert 1, mkC10Alert 2],
      alertDist (mkC10Alert 2) b < cfgStd.suppressionRadius ∧
        (mkC10Alert 2).priority ≤ b.priority := by
  have hnotmem : mkC10Alert 2 ∉ apply_suppression cfgStd [mkC10Alert 1, mkC10Alert 2] := by
    rw [cfgStd_suppress_pair]
    intro hmem
    rw [List.mem_singleton] at hmem
    have := congrArg AlertItem.hazard_id hmem
    rw [show (mkC10Alert 2).hazard_id = 2 from rfl,
      show (mkC10Alert 1).hazard_id = 1 from rfl] at this
    exact absurd this (by norm_num)
  refine ⟨(C4_suppression c4Cfg [c4RowA, c4RowB] 20 5 []).1, by simp, hnotmem, ?_⟩
  exact (C4_suppression cfgStd [] 0 0 [mkC10Alert 1, mkC10Alert 2]).2 (mkC10Alert 2)
    (by simp) hnotmem

/-- C5 (counterexample): with 10003 unprocessed detections — three more than
the hardcoded fetch limit of 10000 — the second consecutive pass, with no
detection added in between, creates one new hazard and processes three
detections, refuting the unconditional idempotence claim. -/
theorem C5_counterexample :
    (bigState.detections.filter (fun d => !d.processed)).length = 10003 ∧
    bigSt1 = (process_detections cfg1 bigState).1 ∧
    (process_detections cfg1 bigSt1).2.hazardsCreated = 1 ∧
    (process_detections cfg1 bigSt1).2.detectionsProcessed = 3 := by
  refine ⟨?_, rfl, big_run2.1, big_run2.2⟩
  rw [big_filter]
  rw [show bigA ++ bigB = bigState.detections from rfl]
  exact big_length

/-- C5 (amended): when the unprocessed backlog fits in the 10000-row fetch
limit, a second consecutive pass is a no-op returning all-zero counters and
leaving the state unchanged; and a pass that finds zero unprocessed
detections is itself a no-op that mutates nothing. -/
theorem C5_idempotent_within_limit (cfg : PassCfg) (st : DBState) :
    ((st.detections.filter (fun d => !d.processed)).length ≤ 10000 →
      process_detections cfg (process_detections cfg st).1 =
        ((process_detections cfg st).1, ⟨0, 0, 0, 0, 0⟩)) ∧
    (st.detections.filter (fun d => !d.processed) = [] →
      process_detections cfg st = (st, ⟨0, 0, 0, 0, 0⟩)) :=
  ⟨process_detections_idem cfg st, process_detections_noop cfg st⟩

/-- C5 witness: the amended theorem applied to the concrete three-detection
scenario, whose backlog is below the limit. -/
theorem C5_witness :
    (exState.detections.filter (fun d => !d.processed)).length ≤ 10000 ∧
    process_detections cfg1 (process_detections cfg1 exState).1 =
      ((process_detections cfg1 exState).1, ⟨0, 0, 0, 0, 0⟩) := by
  have hle : (exState.detections.filter (fun d => !d.processed)).length ≤ 10000 := by
    show (3:ℕ) ≤ 10000
    norm_num
  exact ⟨hle, (C5_idempotent_within_limit cfg1 exState).1 hle⟩

theorem pyRound_mono (k : ℕ) {x y : ℝ} (h : x ≤ y) : pyRound k x ≤ pyRound k y := by
  rw [pyRound, pyRound]
  have hr : round (x * 10 ^ k) ≤ round (y * 10 ^ k) := by
    rw [round_eq, round_eq]
    exact Int.floor_mono (by nlinarith [pow_pos (by norm_num : (0:ℝ) < 10) k])
  have hc : ((round (x * 10 ^ k) : ℤ) : ℝ) ≤ ((round (y * 10 ^ k) : ℤ) : ℝ) :=
    Int.cast_le.mpr hr
  exact (div_le_div_right (by positivity)).mpr hc

theorem pyRound_zero (k : ℕ) : pyRound k 0 = 0 := by
  rw [pyRound]
  norm_num

theorem le_foldl_max (t : List ℝ) : ∀ a : ℝ, a ≤ t.foldl max a := by
  induction t with
  | nil => intro a; exact le_refl a
  | cons b t ih =>
      intro a
      exact le_trans (le_max_left a b) (ih (max a b))

theorem listMax_nonneg {l : List ℝ} (hne : l ≠ []) (h : ∀ x ∈ l, 0 ≤ x) :
    0 ≤ listMax l := by
  match l, hne with
  | a :: t, _ =>
      rw [listMax]
      exact le_trans (h a (List.mem_cons_self _ _)) (le_foldl_max t a)

theorem listMean_nonneg {l : List ℝ} (h : ∀ x ∈ l, 0 ≤ x) : 0 ≤ listMean l := by
  rw [listMean]
  exact div_nonneg (List.sum_nonneg h) (by positivity)

/-- Severity as a function of the cluster's mean and max magnitude. -/
noncomputable def sevOfStats (m M : ℝ) : ℝ :=
  pyRound 2 (min 10 ((0.7 * m + 0.3 * M) / 5 * 10))

theorem pyRound2_ten : pyRound 2 10 = 10 := by
  rw [pyRound]
  norm_num [round_eq]

theorem sevOfStats_mem (m M : ℝ) (hm : 0 ≤ m) (hM : 0 ≤ M) :
    0 ≤ sevOfStats m M ∧ sevOfStats m M ≤ 10 := by
  have hv : (0:ℝ) ≤ min 10 ((0.7 * m + 0.3 * M) / 5 * 10) :=
    le_min (by norm_num) (by positivity)
  have hv10 : min 10 ((0.7 * m + 0.3 * M) / 5 * 10) ≤ 10 := min_le_left _ _
  constructor
  · have := pyRound_mono 2 hv
    rwa [pyRound_zero] at this
  · have := pyRound_mono 2 hv10
    rwa [pyRound2_ten] at this

theorem sevOfStats_mono_left (m m' M : ℝ) (h : m ≤ m') :
    sevOfStats m M ≤ sevOfStats m' M := by
  apply pyRound_mono
  exact min_le_min le_rfl (by nlinarith)

theorem sevOfStats_mono_right (m M M' : ℝ) (h : M ≤ M') :
    sevOfStats m M ≤ sevOfStats m M' := by
  apply pyRound_mono
  exact min_le_min le_rfl (by nlinarith)

/-- C6: for every non-empty magnitude list the computed severity equals
`round(min(10, ((0.7·mean + 0.3·max)/5)·10), 2)`; for non-negative
magnitudes it lies in `[0, 10]`, and as a function of the (mean, max)
statistics it is monotone non-decreasing in each argument. -/
theorem C6_severity (mags : List ℝ) (hne : mags ≠ []) :
    calculate_cluster_severity mags = sevOfStats (listMean mags) (listMax mags) ∧
    ((∀ x ∈ mags, 0 ≤ x) →
      0 ≤ calculate_cluster_severity mags ∧ calculate_cluster_severity mags ≤ 10) ∧
    (∀ m m' M : ℝ, m ≤ m' → sevOfStats m M ≤ sevOfStats m' M) ∧
    (∀ m M M' : ℝ, M ≤ M' → sevOfStats m M ≤ sevOfStats m M') := by
  have heq : calculate_cluster_severity mags = sevOfStats (listMean mags) (listMax mags) := by
    rw [calculate_cluster_severity, if_neg (by simpa using hne), sevOfStats]
    norm_num
  refine ⟨heq, ?_, sevOfStats_mono_left, sevOfStats_mono_right⟩
  intro hpos
  rw [heq]
  exact sevOfStats_mem _ _ (listMean_nonneg hpos) (listMax_nonneg hne hpos)

/-- C6 witness: the theorem applied to the one-element list `[5]`. -/
theorem C6_witness :
    ([(5:ℝ)] ≠ []) ∧
    (calculate_cluster_severity [(5:ℝ)] = sevOfStats (listMean [(5:ℝ)]) (listMax [(5:ℝ)]) ∧
    ((∀ x ∈ [(5:ℝ)], 0 ≤ x) →
      0 ≤ calculate_cluster_severity [(5:ℝ)] ∧ calculate_cluster_severity [(5:ℝ)] ≤ 10) ∧
    (∀ m m' M : ℝ, m ≤ m' → sevOfStats m M ≤ sevOfStats m' M) ∧
    (∀ m M M' : ℝ, M ≤ M' → sevOfStats m M ≤ sevOfStats m M')) :=
  ⟨by simp, C6_severity [(5:ℝ)] (by simp)⟩

theorem pyRound3_one : pyRound 3 1 = 1 := by
  rw [pyRound]
  norm_num [round_eq]

/-- C7: the ongoing confidence equals the claimed capped-component formula,
and under the claimed input constraints it lies in `[0, 1]`. -/
theorem C7_confidence (dc uc days pv tv : ℤ)
    (hdc : 0 ≤ dc) (huc : 0 ≤ uc) (hpv : 0 ≤ pv) (_hpt : pv ≤ tv) :
    calculate_confidence_score dc uc days pv tv
      = pyRound 3 (min 1
          (min 0.4 ((dc : ℝ) / 10 * 0.4) + min 0.3 ((uc : ℝ) / 5 * 0.3) +
           (if days ≤ 7 then 0.2 else if days ≤ 30 then 0.15
            else if days ≤ 60 then 0.1 else 0.05) +
           (if 0 < tv then ((pv : ℝ) / (tv : ℝ)) * 0.1 else 0))) ∧
    0 ≤ calculate_confidence_score dc uc days pv tv ∧
    calculate_confidence_score dc uc days pv tv ≤ 1 := by
  have heq : calculate_confidence_score dc uc days pv tv
      = pyRound 3 (min 1
          (min 0.4 ((dc : ℝ) / 10 * 0.4) + min 0.3 ((uc : ℝ) / 5 * 0.3) +
           (if days ≤ 7 then 0.2 else if days ≤ 30 then 0.15
            else if days ≤ 60 then 0.1 else 0.05) +
           (if 0 < tv then ((pv : ℝ) / (tv : ℝ)) * 0.1 else 0))) := by
    rw [calculate_confidence_score]
    norm_num
  have hdc' : (0:ℝ) ≤ (dc : ℝ) := by exact_mod_cast hdc
  have huc' : (0:ℝ) ≤ (uc : ℝ) := by exact_mod_cast huc
  have hds : (0:ℝ) ≤ min 0.4 ((dc : ℝ) / 10 * 0.4) :=
    le_min (by norm_num) (by positivity)
  have hus : (0:ℝ) ≤ min 0.3 ((uc : ℝ) / 5 * 0.3) :=
    le_min (by norm_num) (by positivity)
  have hrs : (0:ℝ) ≤ (if days ≤ 7 then (0.2:ℝ) else if days ≤ 30 then 0.15
      else if days ≤ 60 then 0.1 else 0.05) := by
    split_ifs <;> norm_num
  have hvs : (0:ℝ) ≤ (if 0 < tv then ((pv : ℝ) / (tv : ℝ)) * 0.1 else 0) := by
    split_ifs with h
    · have htv : (0:ℝ) < (tv : ℝ) := by exact_mod_cast h
      have hpv' : (0:ℝ) ≤ (pv : ℝ) := by exact_mod_cast hpv
      positivity
    · exact le_refl 0
  have hsum : (0:ℝ) ≤ min 1
      (min 0.4 ((dc : ℝ) / 10 * 0.4) + min 0.3 ((uc : ℝ) / 5 * 0.3) +
       (if days ≤ 7 then 0.2 else if days ≤ 30 then 0.15
        else if days ≤ 60 then 0.1 else 0.05) +
       (if 0 < tv then ((pv : ℝ) / (tv : ℝ)) * 0.1 else 0)) :=
    le_min (by norm_num) (by linarith)
  refine ⟨heq, ?_, ?_⟩
  · rw [heq]
    have := pyRound_mono 3 hsum
    rwa [pyRound_zero] at this
  · rw [heq]
    have hle1 := min_le_left (1:ℝ)
      (min 0.4 ((dc : ℝ) / 10 * 0.4) + min 0.3 ((uc : ℝ) / 5 * 0.3) +
       (if days ≤ 7 then 0.2 else if days ≤ 30 then 0.15
        else if days ≤ 60 then 0.1 else 0.05) +
       (if 0 < tv then ((pv : ℝ) / (tv : ℝ)) * 0.1 else 0))
    have := pyRound_mono 3 hle1
    rwa [pyRound3_one] at this

/-- C7 witness: the theorem applied at concrete statistics. -/
theorem C7_witness :
    ((0:ℤ) ≤ 5 ∧ (0:ℤ) ≤ 2 ∧ (0:ℤ) ≤ 1 ∧ (1:ℤ) ≤ 2) ∧
    (calculate_confidence_score 5 2 3 1 2
      = pyRound 3 (min 1
          (min 0.4 (((5:ℤ) : ℝ) / 10 * 0.4) + min 0.3 (((2:ℤ) : ℝ) / 5 * 0.3) +
           (if (3:ℤ) ≤ 7 then 0.2 else if (3:ℤ) ≤ 30 then 0.15
            else if (3:ℤ) ≤ 60 then 0.1 else 0.05) +
           (if (0:ℤ) < 2 then (((1:ℤ) : ℝ) / ((2:ℤ) : ℝ)) * 0.1 else 0))) ∧
    0 ≤ calculate_confidence_score 5 2 3 1 2 ∧
    calculate_confidence_score 5 2 3 1 2 ≤ 1) :=
  ⟨⟨by norm_num, by norm_num, by norm_num, by norm_num⟩,
   C7_confidence 5 2 3 1 2 (by norm_num) (by norm_num) (by norm_num) (by norm_num)⟩

/-- C8: the per-hazard trigger distance equals
`round(clamp(speed·20·(0.5 + severity/10·0.5), min, max), 1)`; a candidate is
kept by the alert-building loop exactly when its actual distance is at most
its own trigger distance; and at speed 20 m/s, severity 8 under the default
bounds the trigger distance is 360 m, so a hazard at 300 m is in range. -/
theorem C8_trigger_distance (cfg : AlertCfg) (speed sev : ℝ)
    (_hs : 0 ≤ speed) (_h0 : 0 ≤ sev) (_h10 : sev ≤ 10) :
    calculate_alert_distance cfg speed sev
      = pyRound 1 (max cfg.minAlertDistance (min cfg.maxAlertDistance
          (speed * 20 * (0.5 + sev / 10 * 0.5)))) ∧
    (∀ (hazards : List HazardAlertRow) (h : HazardAlertRow), h ∈ hazards →
      h.distance ≤ calculate_alert_distance cfg speed h.severity →
      mkAlertItem cfg h ∈ buildAlerts cfg speed hazards) ∧
    (∀ (hazards : List HazardAlertRow) (a : AlertItem), a ∈ buildAlerts cfg speed hazards →
      ∃ h ∈ hazards, a = mkAlertItem cfg h ∧
        h.distance ≤ calculate_alert_distance cfg speed h.severity) ∧
    (calculate_alert_distance cfgStd 20 8 = 360 ∧ (300:ℝ) ≤ 360) := by
  refine ⟨?_, ?_, ?_, calc_alert_distance_20_8 cfgStd rfl rfl, by norm_num⟩
  · rw [calculate_alert_distance]
    have harg : speed * (20.0 * (0.5 + sev / 10 * 0.5))
        = speed * 20 * (0.5 + sev / 10 * 0.5) := by ring
    rw [harg]
  · intro hazards h hmem hcond
    rw [buildAlerts, List.mem_filterMap]
    exact ⟨h, hmem, by rw [if_pos hcond]⟩
  · intro hazards a ha
    rw [buildAlerts, List.mem_filterMap] at ha
    obtain ⟨h, hmem, heq⟩ := ha
    by_cases hcond : h.distance ≤ calculate_alert_distance cfg speed h.severity
    · rw [if_pos hcond] at heq
      cases heq
      exact ⟨h, hmem, rfl, hcond⟩
    · rw [if_neg hcond] at heq
      cases heq

/-- C8 witness: the theorem applied at speed 20 m/s and severity 8. -/
theorem C8_witness :
    ((0:ℝ) ≤ 20 ∧ (0:ℝ) ≤ 8 ∧ (8:ℝ) ≤ 10) ∧
    (calculate_alert_distance cfgStd 20 8
      = pyRound 1 (max cfgStd.minAlertDistance (min cfgStd.maxAlertDistance
          ((20:ℝ) * 20 * (0.5 + 8 / 10 * 0.5)))) ∧
    (∀ (hazards : List HazardAlertRow) (h : HazardAlertRow), h ∈ hazards →
      h.distance ≤ calculate_alert_distance cfgStd 20 h.severity →
      mkAlertItem cfgStd h ∈ buildAlerts cfgStd 20 hazards) ∧
    (∀ (hazards : List HazardAlertRow) (a : AlertItem), a ∈ buildAlerts cfgStd 20 hazards →
      ∃ h ∈ hazards, a = mkAlertItem cfgStd h ∧
        h.distance ≤ calculate_alert_distance cfgStd 20 h.severity) ∧
    (calculate_alert_distance cfgStd 20 8 = 360 ∧ (300:ℝ) ≤ 360)) :=
  ⟨⟨by norm_num, by norm_num, by norm_num⟩,
   C8_trigger_distance cfgStd 20 8 (by norm_num) (by norm_num) (by norm_num)⟩

/-- C9: when the hazard exists, a verification by a user who already verified
it is rejected with a conflict error and no successor state (the hazard's
counters are untouched); otherwise exactly one verification row is appended,
the hazard's `verification_count` rises by 1 and `positive_verifications`
rises by 1 exactly when the judgment is positive, and all other hazard rows
are unchanged. -/
theorem C9_verification (hid : ℕ) (uid : ℤ) (b : Bool) (cm : Option String)
    (st : VerifyState) (hfound : (st.hazards.find? (fun h => h.id == hid)).isSome = true) :
    ((∃ v ∈ st.verifications, v.hazardId = hid ∧ v.userId = uid) →
      verify_hazard hid uid b cm st = .error .conflict) ∧
    ((∀ v ∈ st.verifications, ¬ (v.hazardId = hid ∧ v.userId = uid)) →
      ∃ st', verify_hazard hid uid b cm st = .ok st' ∧
        st'.verifications = st.verifications ++ [⟨hid, uid, b, cm⟩] ∧
        (∀ h ∈ st.hazards, h.id = hid →
          ({ h with verificationCount := h.verificationCount + 1,
                    positiveVerifications := h.positiveVerifications +
                      (if b then 1 else 0) } : HazardRec) ∈ st'.hazards) ∧
        (∀ h ∈ st.hazards, h.id ≠ hid → h ∈ st'.hazards)) := by
  obtain ⟨hz, hf⟩ := Option.isSome_iff_exists.mp hfound
  constructor
  · rintro ⟨v, hv, hvh, hvu⟩
    rw [verify_hazard]
    rw [hf]
    rw [if_pos (List.any_eq_true.mpr ⟨v, hv, by
      rw [Bool.and_eq_true]
      exact ⟨by simpa using hvh, by simpa using hvu⟩⟩)]
  · intro hnone
    rw [verify_hazard, hf]
    rw [if_neg (by
      rw [Bool.not_eq_true, List.any_eq_false]
      intro v hv
      rw [Bool.and_eq_true]
      rintro ⟨h1, h2⟩
      exact hnone v hv ⟨by simpa using h1, by simpa using h2⟩)]
    refine ⟨_, rfl, rfl, ?_, ?_⟩
    · intro h hh hhid
      refine List.mem_map.mpr ⟨h, hh, ?_⟩
      rw [if_pos (by simpa using hhid)]
    · intro h hh hhid
      refine List.mem_map.mpr ⟨h, hh, ?_⟩
      rw [if_neg (by simpa using hhid)]

/-- A concrete hazard row for the C9 witness. -/
noncomputable def wHazard : HazardRec :=
  ⟨1, 0, 0, "unknown", 5, 0.5, 3, 2, 0, 0, 0, 0, true, false⟩

/-- C9 witness: the theorem applied to a one-hazard store with no prior
verifications. -/
theorem C9_witness :
    ((([wHazard] : List HazardRec).find? (fun h => h.id == 1)).isSome = true) ∧
    ((∀ v ∈ ([] : List VerificationRow), ¬ (v.hazardId = 1 ∧ v.userId = 7)) ∧
     ∃ st', verify_hazard 1 7 true none ⟨[wHazard], []⟩ = .ok st' ∧
        st'.verifications = [] ++ [⟨1, 7, true, none⟩] ∧
        (∀ h ∈ [wHazard], h.id = 1 →
          ({ h with verificationCount := h.verificationCount + 1,
                    positiveVerifications := h.positiveVerifications +
                      (if true then 1 else 0) } : HazardRec) ∈ st'.hazards) ∧
        (∀ h ∈ [wHazard], h.id ≠ 1 → h ∈ st'.hazards)) := by
  have hfound : ((([wHazard] : List HazardRec).find? (fun h => h.id == 1)).isSome = true) := by
    rw [List.find?]
    rfl
  have hnone : ∀ v ∈ ([] : List VerificationRow), ¬ (v.hazardId = 1 ∧ v.userId = 7) := by
    intro v hv
    exact absurd hv (List.not_mem_nil v)
  exact ⟨hfound, hnone,
    (C9_verification 1 7 true none ⟨[wHazard], []⟩ hfound).2 hnone⟩

/-- C10: the spatial query evaluates at most `2 × max_alerts` candidates —
the nearest active in-radius hazards by engine distance — and every returned
alert comes from that candidate set; consequently, in the concrete
eleven-hazard scenario the active hazard 11, although within its own trigger
distance, never appears in the result because ten active hazards lie
closer. -/
theorem C10_candidate_truncation (cfg : AlertCfg) (table : List HazardAlertRow)
    (speed : ℝ) (k : ℕ) :
    (spatialQuery table (calculate_alert_distance cfg speed 10) (k * 2)).length ≤ 2 * k ∧
    (∀ a ∈ get_alerts_for_route cfg table speed k,
      ∃ h ∈ spatialQuery table (calculate_alert_distance cfg speed 10) (k * 2),
        a.hazard_id = h.id) ∧
    (∀ x ∈ spatialQuery table (calculate_alert_distance cfg speed 10) (k * 2),
      ∀ y ∈ ((table.filter (fun h => h.isActive && decide (h.distance ≤
          calculate_alert_distance cfg speed 10))).insertionSort
            (fun a b => a.distance ≤ b.distance)).drop (k * 2),
        x.distance ≤ y.distance) ∧
    ((mkC10Row 11 300).isActive = true ∧
     (mkC10Row 11 300).distance ≤ calculate_alert_distance c10Cfg 20 (mkC10Row 11 300).severity ∧
     mkC10Row 11 300 ∈ c10Table ∧
     ∀ a ∈ get_alerts_for_route c10Cfg c10Table 20 5, a.hazard_id ≠ 11) := by
  refine ⟨?_, ?_, ?_, rfl, ?_, ?_, ?_⟩
  · rw [spatialQuery]
    calc _ ≤ k * 2 := List.length_take_le _ _
    _ = 2 * k := Nat.mul_comm k 2
  · intro a ha
    obtain ⟨h, hm, heq, _⟩ := get_alerts_from_query cfg table speed k a ha
    exact ⟨h, hm, heq⟩
  · intro x hx y hy
    rw [spatialQuery] at hx
    exact (List.sorted_insertionSort (fun a b : HazardAlertRow => a.distance ≤ b.distance)
      _).rel_of_mem_take_of_mem_drop hx hy
  · rw [show (mkC10Row 11 300).severity = 10 from rfl,
      calc_alert_distance_20_10 c10Cfg rfl rfl]
    show (300:ℝ) ≤ 400
    norm_num
  · rw [c10Table]
    simp
  · intro a ha
    rw [c10_run] at ha
    simp only [List.mem_cons, List.not_mem_nil, or_false] at ha
    rcases ha with rfl | rfl | rfl | rfl | rfl <;>
      · show ¬ (_ = 11)
        norm_num [mkC10Alert]

/-- C10 witness: the theorem instantiated on the concrete scenario; alert 1
is returned and is not hazard 11. -/
theorem C10_witness :
    mkC10Alert 1 ∈ get_alerts_for_route c10Cfg c10Table 20 5 ∧
    (mkC10Alert 1).hazard_id ≠ 11 := by
  have hmem : mkC10Alert 1 ∈ get_alerts_for_route c10Cfg c10Table 20 5 := by
    rw [c10_run]
    simp
  exact ⟨hmem,
    (C10_candidate_truncation c10Cfg c10Table 20 5).2.2.2.2.2.2 (mkC10Alert 1) hmem⟩
